import Mathlib

/-!
Verification development for the UAV survey-mission planner sources.

Conventions of the shallow embedding:
* Every Python/NumPy floating-point number is modelled as an exact rational
  (`ℚ`).  Binary doubles are finite decimal fractions, so the decimal
  formatting and parsing functions below are exact on the model.
* A Python `str` is modelled as a `List Char` (named `Str` below).
* Transcendental primitives (`cos`, `sin`, `sqrt`, `atan2`) have no exact
  rational counterpart; functions that the sources call on them receive the
  primitive as an explicit function argument, and each theorem states only
  facts that hold for every choice of that argument (or fixes the needed
  values by hypothesis).
* Python exceptions are modelled with `Except`/`Option` values.
-/

namespace UAV

attribute [local semireducible] Rat.add Rat.mul Rat.sub Rat.inv Rat.ofScientific

/-- Python `str` is modelled as a list of characters. -/
abbrev Str := List Char

/-- Model of Python's whitespace test used by `str.strip`. -/
def isSpaceChar (c : Char) : Bool :=
  c = ' ' || c = '\t' || c = '\n' || c = '\r' || c = '\x0b' || c = '\x0c'

/-- Model of Python `str.strip()`: drop whitespace from both ends. -/
def strip (s : Str) : Str :=
  ((s.dropWhile isSpaceChar).reverse.dropWhile isSpaceChar).reverse

/-- Model of Python `str.split(sep)` for a one-character separator. -/
def splitOnSep (sep : Char) (s : Str) : List Str :=
  s.foldr
    (fun c acc =>
      if c = sep then [] :: acc
      else
        match acc with
        | [] => [[c]]
        | f :: r => (c :: f) :: r)
    [[]]

/-- Model of joining fields with a one-character separator
(as the `\t`-separated f-string in `Waypoint.to_qgc_line` does). -/
def joinSep (sep : Char) : List Str → Str
  | [] => []
  | [f] => f
  | f :: g :: r => f ++ sep :: joinSep sep (g :: r)

/-- Does `s` start with the prefix `p` (Python `str.startswith`)? -/
def startsWith : Str → Str → Bool
  | [], _ => true
  | _ :: _, [] => false
  | p :: ps, c :: cs => p = c && startsWith ps cs

/-- Little-endian decimal digits of `n` (auxiliary, fuel-driven). -/
def natCharsRevAux : ℕ → ℕ → Str
  | 0, _ => []
  | fuel + 1, n =>
      if n = 0 then []
      else Nat.digitChar (n % 10) :: natCharsRevAux fuel (n / 10)

/-- Decimal rendering of a natural number, as Python `str(n)` for `n ≥ 0`. -/
def natToChars (n : ℕ) : Str :=
  if n = 0 then ['0'] else (natCharsRevAux (n + 1) n).reverse

/-- Decimal rendering of an integer, as Python `str(i)`. -/
def intToChars (i : ℤ) : Str :=
  if i < 0 then '-' :: natToChars i.natAbs else natToChars i.toNat

/-- Numeric value of a decimal digit character. -/
def digitVal (c : Char) : ℕ := c.toNat - 48

/-- Value of a digit string read most-significant first. -/
def digitsVal (cs : Str) : ℕ := cs.foldl (fun a c => 10 * a + digitVal c) 0

/-- Model of Python `int(s)` restricted to an optional sign followed by
decimal digits (the only shapes the emitters produce). -/
def parseNat? (cs : Str) : Option ℕ :=
  if cs ≠ [] && cs.all Char.isDigit then some (digitsVal cs) else none

/-- Model of Python `int(s)` on optionally signed digit strings. -/
def parseInt? (cs : Str) : Option ℤ :=
  match cs with
  | [] => none
  | c :: rest =>
      if c = '-' then (parseNat? rest).map fun n => -(n : ℤ)
      else if c = '+' then (parseNat? rest).map fun n => (n : ℤ)
      else (parseNat? (c :: rest)).map fun n => (n : ℤ)

/-- Round a rational to the nearest integer, ties to even — the rounding
IEEE-754 printing performs, hence the rounding of Python's `%.Nf`. -/
def rhe (q : ℚ) : ℤ :=
  if q - ⌊q⌋ < 1 / 2 then ⌊q⌋
  else if 1 / 2 < q - ⌊q⌋ then ⌊q⌋ + 1
  else if ⌊q⌋ % 2 = 0 then ⌊q⌋ else ⌊q⌋ + 1

/-- `q` rounded to `d` fractional decimal digits. -/
def roundDec (d : ℕ) (q : ℚ) : ℚ := (rhe (q * 10 ^ d) : ℚ) / 10 ^ d

/-- Pad a digit string on the left with zeros up to width `w`. -/
def padZeros (w : ℕ) (cs : Str) : Str :=
  List.replicate (w - cs.length) '0' ++ cs

/-- Model of Python fixed-point formatting `f"{q:.{d}f}"` (for `d ≥ 1`). -/
def formatFixed (q : ℚ) (d : ℕ) : Str :=
  let m := (rhe (q * 10 ^ d)).natAbs
  (if q < 0 then ['-'] else []) ++
    natToChars (m / 10 ^ d) ++ '.' :: padZeros d (natToChars (m % 10 ^ d))

/-- Multiplicity of the factor `p` in `n` (fuel-driven). -/
def factorCount (p : ℕ) : ℕ → ℕ → ℕ
  | 0, _ => 0
  | fuel + 1, n => if n % p = 0 && n ≠ 0 && p > 1 then factorCount p fuel (n / p) + 1 else 0

/-- Smallest `e` with `den ∣ 10 ^ e`, when one exists
(it exists exactly when `den` has no prime factors besides 2 and 5). -/
def decExp? (den : ℕ) : Option ℕ :=
  if den / 2 ^ factorCount 2 den den / 5 ^ factorCount 5 den den = 1 && den ≠ 0 then
    some (max (factorCount 2 den den) (factorCount 5 den den))
  else none

/-- `q` has a finite decimal expansion (every IEEE double does). -/
def IsDecimal (q : ℚ) : Prop := (decExp? q.den).isSome

instance (q : ℚ) : Decidable (IsDecimal q) := by unfold IsDecimal; infer_instance

/-- Model of Python's default float formatting `f"{x}"` / `repr(x)` on
finite decimals: the exact decimal expansion with the minimal number of
fractional digits, at least one.  (CPython prints the shortest decimal
that round-trips the double; on a double whose value has ≤ 16 significant
digits this is that exact expansion.  CPython switches to exponent
notation for very large or very small magnitudes; the values in the
claims are far from those regimes.) -/
def pyFloatRepr (q : ℚ) : Str :=
  match decExp? q.den with
  | some e => formatFixed q (max 1 e)
  | none => formatFixed q 17

/-- The unsigned part of the `float(s)` model: plain digits, or digits
around a single decimal point (not both sides empty). -/
def parseRatCore (body : Str) : Option ℚ :=
  match splitOnSep '.' body with
  | [ds] => (parseNat? ds).map fun n => (n : ℚ)
  | [ds, fs] =>
      if (ds ≠ [] || fs ≠ []) && ds.all Char.isDigit && fs.all Char.isDigit then
        some ((digitsVal ds : ℚ) + (digitsVal fs : ℚ) / 10 ^ fs.length)
      else none
  | _ => none

/-- Model of Python `float(s)` restricted to optionally signed plain
decimal literals (the only shapes the emitters produce). -/
def parseRat? (cs : Str) : Option ℚ :=
  match cs with
  | [] => none
  | c :: rest =>
      if c = '-' then (parseRatCore rest).map fun q => -q
      else if c = '+' then parseRatCore rest
      else parseRatCore (c :: rest)

/-! ### `src/mission/waypoint.py` — MAVLink commands, frames, waypoints -/

/-- The `MAVCommand` enumeration of `waypoint.py`. -/
inductive MAVCommand
  | NAV_WAYPOINT | NAV_LOITER_UNLIM | NAV_LOITER_TURNS | NAV_LOITER_TIME
  | NAV_RETURN_TO_LAUNCH | NAV_LAND | NAV_TAKEOFF
  | CONDITION_DELAY | CONDITION_DISTANCE | CONDITION_YAW
  | DO_CHANGE_SPEED | DO_SET_HOME | DO_SET_RELAY | DO_REPEAT_RELAY
  | DO_SET_SERVO | DO_REPEAT_SERVO | DO_SET_ROI | DO_DIGICAM_CONTROL
  | DO_MOUNT_CONTROL | DO_SET_CAM_TRIGG_DIST
  deriving DecidableEq

/-- Integer value of each `MAVCommand` member. -/
def MAVCommand.val : MAVCommand → ℕ
  | .NAV_WAYPOINT => 16 | .NAV_LOITER_UNLIM => 17 | .NAV_LOITER_TURNS => 18
  | .NAV_LOITER_TIME => 19 | .NAV_RETURN_TO_LAUNCH => 20 | .NAV_LAND => 21
  | .NAV_TAKEOFF => 22 | .CONDITION_DELAY => 112 | .CONDITION_DISTANCE => 114
  | .CONDITION_YAW => 115 | .DO_CHANGE_SPEED => 178 | .DO_SET_HOME => 179
  | .DO_SET_RELAY => 181 | .DO_REPEAT_RELAY => 182 | .DO_SET_SERVO => 183
  | .DO_REPEAT_SERVO => 184 | .DO_SET_ROI => 201 | .DO_DIGICAM_CONTROL => 203
  | .DO_MOUNT_CONTROL => 205 | .DO_SET_CAM_TRIGG_DIST => 206

/-- `MAVCommand(i)`: look an integer up in the enumeration, `none` when the
constructor call would raise `ValueError`. -/
def MAVCommand.ofVal? (i : ℤ) : Option MAVCommand :=
  if i = 16 then some .NAV_WAYPOINT else if i = 17 then some .NAV_LOITER_UNLIM
  else if i = 18 then some .NAV_LOITER_TURNS else if i = 19 then some .NAV_LOITER_TIME
  else if i = 20 then some .NAV_RETURN_TO_LAUNCH else if i = 21 then some .NAV_LAND
  else if i = 22 then some .NAV_TAKEOFF else if i = 112 then some .CONDITION_DELAY
  else if i = 114 then some .CONDITION_DISTANCE else if i = 115 then some .CONDITION_YAW
  else if i = 178 then some .DO_CHANGE_SPEED else if i = 179 then some .DO_SET_HOME
  else if i = 181 then some .DO_SET_RELAY else if i = 182 then some .DO_REPEAT_RELAY
  else if i = 183 then some .DO_SET_SERVO else if i = 184 then some .DO_REPEAT_SERVO
  else if i = 201 then some .DO_SET_ROI else if i = 203 then some .DO_DIGICAM_CONTROL
  else if i = 205 then some .DO_MOUNT_CONTROL else if i = 206 then some .DO_SET_CAM_TRIGG_DIST
  else none

/-- The `CoordinateFrame` enumeration of `waypoint.py`. -/
inductive CoordinateFrame
  | GLOBAL | LOCAL_NED | MISSION | GLOBAL_RELATIVE_ALT | LOCAL_ENU
  | GLOBAL_INT | GLOBAL_RELATIVE_ALT_INT | LOCAL_OFFSET_NED | BODY_NED
  | BODY_OFFSET_NED | GLOBAL_TERRAIN_ALT | GLOBAL_TERRAIN_ALT_INT
  deriving DecidableEq

/-- Integer value of each `CoordinateFrame` member. -/
def CoordinateFrame.val : CoordinateFrame → ℕ
  | .GLOBAL => 0 | .LOCAL_NED => 1 | .MISSION => 2 | .GLOBAL_RELATIVE_ALT => 3
  | .LOCAL_ENU => 4 | .GLOBAL_INT => 5 | .GLOBAL_RELATIVE_ALT_INT => 6
  | .LOCAL_OFFSET_NED => 7 | .BODY_NED => 8 | .BODY_OFFSET_NED => 9
  | .GLOBAL_TERRAIN_ALT => 10 | .GLOBAL_TERRAIN_ALT_INT => 11

/-- `CoordinateFrame(i)`, `none` on `ValueError`. -/
def CoordinateFrame.ofVal? (i : ℤ) : Option CoordinateFrame :=
  if i = 0 then some .GLOBAL else if i = 1 then some .LOCAL_NED
  else if i = 2 then some .MISSION else if i = 3 then some .GLOBAL_RELATIVE_ALT
  else if i = 4 then some .LOCAL_ENU else if i = 5 then some .GLOBAL_INT
  else if i = 6 then some .GLOBAL_RELATIVE_ALT_INT else if i = 7 then some .LOCAL_OFFSET_NED
  else if i = 8 then some .BODY_NED else if i = 9 then some .BODY_OFFSET_NED
  else if i = 10 then some .GLOBAL_TERRAIN_ALT else if i = 11 then some .GLOBAL_TERRAIN_ALT_INT
  else none

/-- The `Waypoint` dataclass (the free-form `metadata` mapping is omitted:
no claim concerns it and it does not enter the QGC text). -/
structure Waypoint where
  seq : ℤ
  command : MAVCommand
  lat : ℚ := 0
  lon : ℚ := 0
  alt : ℚ := 0
  frame : CoordinateFrame := .GLOBAL_RELATIVE_ALT
  param1 : ℚ := 0
  param2 : ℚ := 0
  param3 : ℚ := 0
  param4 : ℚ := 0
  current : ℤ := 0
  autocontinue : ℤ := 1
  deriving DecidableEq

/-- `Waypoint.to_qgc_line`: the tab-separated QGC WPL 110 line.
Fields appear in the source order; `IntEnum` members format as their
integer value, plain floats by `pyFloatRepr`, and lat/lon/alt through
the `:.6f`/`:.6f`/`:.2f` fixed-point specifiers of the f-string. -/
def Waypoint.to_qgc_line (wp : Waypoint) : Str :=
  joinSep '\t'
    [intToChars wp.seq, intToChars wp.current,
     natToChars wp.frame.val, natToChars wp.command.val,
     pyFloatRepr wp.param1, pyFloatRepr wp.param2,
     pyFloatRepr wp.param3, pyFloatRepr wp.param4,
     formatFixed wp.lat 6, formatFixed wp.lon 6, formatFixed wp.alt 2,
     intToChars wp.autocontinue]

/-- `Waypoint.from_qgc_line`: strip, split on tabs, require ≥ 12 parts,
convert each field; any conversion failure yields `none`. -/
def Waypoint.from_qgc_line (line : Str) : Option Waypoint :=
  match splitOnSep '\t' (strip line) with
  | p0 :: p1 :: p2 :: p3 :: p4 :: p5 :: p6 :: p7 :: p8 :: p9 :: p10 :: p11 :: _ => do
      let seq ← parseInt? p0
      let current ← parseInt? p1
      let frame ← (parseInt? p2).bind CoordinateFrame.ofVal?
      let command ← (parseInt? p3).bind MAVCommand.ofVal?
      let param1 ← parseRat? p4
      let param2 ← parseRat? p5
      let param3 ← parseRat? p6
      let param4 ← parseRat? p7
      let lat ← parseRat? p8
      let lon ← parseRat? p9
      let alt ← parseRat? p10
      let autocontinue ← parseInt? p11
      some { seq, command, lat, lon, alt, frame,
             param1, param2, param3, param4, current, autocontinue }
  | _ => none

/-- `WaypointSequence._update_sequence_numbers`: set every `seq` to its index. -/
def updateSequenceNumbers (l : List Waypoint) : List Waypoint :=
  l.enum.map fun p => { p.2 with seq := (p.1 : ℤ) }

/-- The `WaypointSequence` class; its constructor re-indexes, so `seq`
always equals the list index. -/
structure WaypointSequence where
  waypoints : List Waypoint
  deriving DecidableEq

/-- `WaypointSequence(initial)`: store and renumber. -/
def WaypointSequence.mkSeq (l : List Waypoint) : WaypointSequence :=
  ⟨updateSequenceNumbers l⟩

/-- `WaypointSequence.add`: append then renumber. -/
def WaypointSequence.add (s : WaypointSequence) (wp : Waypoint) : WaypointSequence :=
  ⟨updateSequenceNumbers (s.waypoints ++ [wp])⟩

/-- The `QGC WPL 110` header line. -/
def qgcHeader : Str := "QGC WPL 110".data

/-- `WaypointSequence.to_qgc_format`: header plus one line per waypoint. -/
def WaypointSequence.to_qgc_format (s : WaypointSequence) : List Str :=
  qgcHeader :: s.waypoints.map Waypoint.to_qgc_line

/-- One step of the `from_qgc_format` loop: skip blank/comment/header
lines, parse the rest, silently drop unparsable lines. -/
def fromQgcStep (s : WaypointSequence) (line : Str) : WaypointSequence :=
  let l := strip line
  if l = [] || startsWith ['#'] l || startsWith ('Q' :: 'G' :: 'C' :: []) l then s
  else
    match Waypoint.from_qgc_line l with
    | some wp => s.add wp
    | none => s

/-- `WaypointSequence.from_qgc_format`. -/
def WaypointSequence.from_qgc_format (lines : List Str) : WaypointSequence :=
  lines.foldl fromQgcStep ⟨[]⟩

/-- The lat/lon/alt print-rounding that one emit/parse cycle applies to a
waypoint (all other fields survive exactly). -/
def qgcRound (wp : Waypoint) : Waypoint :=
  { wp with lat := roundDec 6 wp.lat, lon := roundDec 6 wp.lon,
            alt := roundDec 2 wp.alt }

/-! ### `src/core/geometry/coordinate.py` — local ENU projection -/

/-- A 2-D local point (`np.array([x, y])`). -/
structure Pt where
  x : ℚ
  y : ℚ
  deriving DecidableEq

/-- Squared Euclidean norm of the difference of two points.
`np.linalg.norm(a - b)` is the square root of this; call sites apply the
`sqrtF` model argument to it. -/
def distSq (a b : Pt) : ℚ := (a.x - b.x) ^ 2 + (a.y - b.y) ^ 2

/-- The exact rational value of the IEEE binary64 number nearest π
(`math.pi`, `np.pi`). -/
def piFloat : ℚ := 884279719003555 / 281474976710656

/-- `np.radians` / `math.radians`: degrees to radians. -/
def radiansQ (x : ℚ) : ℚ := x * piFloat / 180

/-- The `CoordinateTransformer` of `coordinate.py`.  Its constructor
precomputes `_meters_per_deg_lat/lon` via trigonometric functions of the
origin latitude; the embedding stores those two precomputed values
(`mLat`, `mLon`) as fields. -/
structure CoordinateTransformer where
  originLat : ℚ
  originLon : ℚ
  originAlt : ℚ := 0
  mLat : ℚ
  mLon : ℚ
  deriving DecidableEq

/-- `CoordinateTransformer(lat, lon)` given the two coefficient functions
(models of `_calculate_meters_per_deg_lat/lon`). -/
def mkTransformer (mLatF mLonF : ℚ → ℚ) (lat lon : ℚ) : CoordinateTransformer :=
  { originLat := lat, originLon := lon, mLat := mLatF lat, mLon := mLonF lat }

/-- `geo_to_local`: degrees offsets scaled to metres, returned as the
full 3-element ENU vector `np.array([x, y, z])` the source builds
(coordinate.py:128).  The `alt` argument defaults to `0.0` in Python;
call sites that rely on the default pass `0` explicitly. -/
def CoordinateTransformer.geo_to_local (t : CoordinateTransformer)
    (lat lon alt : ℚ) : ℚ × ℚ × ℚ :=
  ((lon - t.originLon) * t.mLon, (lat - t.originLat) * t.mLat,
   alt - t.originAlt)

/-- The x/y projection of a 3-vector, for the call sites that read only
`point[0]` and `point[1]` of a `geo_to_local` result (the boundary points
of `generate_survey_grid`: `offset_polygon`, `_generate_scan_lines`,
`_scanline_intersect` and `calculate_area` all index just the first two
components). -/
def ptXY (v : ℚ × ℚ × ℚ) : Pt := ⟨v.1, v.2.1⟩

/-- `local_to_geo` restricted to latitude/longitude (altitude handled by
the caller). -/
def CoordinateTransformer.local_to_geo (t : CoordinateTransformer)
    (x y : ℚ) : ℚ × ℚ :=
  (t.originLat + y / t.mLat, t.originLon + x / t.mLon)

/-! ### `src/core/geometry/polygon.py` — area and offset -/

/-- List indexing with the fallback `⟨0,0⟩`; all uses below are in range. -/
def pget (l : List Pt) (k : ℕ) : Pt := l.getD k ⟨0, 0⟩

/-- `PolygonUtils.calculate_area`: absolute shoelace area. -/
def calculateArea (polygon : List Pt) : ℚ :=
  if polygon.length < 3 then 0
  else
    |(polygon.zip (polygon.rotate 1)).foldl
        (fun a e => a + e.1.x * e.2.y - e.2.x * e.1.y) 0| / 2

/-- `PolygonUtils.offset_polygon` (averaged vertex normals with
angle-halving correction); `sqrtF` models the square root inside
`np.linalg.norm`. -/
def offsetPolygon (sqrtF : ℚ → ℚ) (polygon : List Pt) (offset : ℚ) : List Pt :=
  let n := polygon.length
  if n < 3 then polygon
  else
    (List.range n).map fun i =>
      let prev := pget polygon ((i + n - 1) % n)
      let curr := pget polygon i
      let next := pget polygon ((i + 1) % n)
      let e1 : Pt := ⟨curr.x - prev.x, curr.y - prev.y⟩
      let e2 : Pt := ⟨next.x - curr.x, next.y - curr.y⟩
      let n1 : Pt := ⟨-e1.y, e1.x⟩
      let n2 : Pt := ⟨-e2.y, e2.x⟩
      let len1 := sqrtF (n1.x ^ 2 + n1.y ^ 2)
      let len2 := sqrtF (n2.x ^ 2 + n2.y ^ 2)
      let n1 := if len1 > 1 / 10 ^ 10 then (⟨n1.x / len1, n1.y / len1⟩ : Pt) else n1
      let n2 := if len2 > 1 / 10 ^ 10 then (⟨n2.x / len2, n2.y / len2⟩ : Pt) else n2
      let avg : Pt := ⟨n1.x + n2.x, n1.y + n2.y⟩
      let avgLen := sqrtF (avg.x ^ 2 + avg.y ^ 2)
      if avgLen > 1 / 10 ^ 10 then
        let avgn : Pt := ⟨avg.x / avgLen, avg.y / avgLen⟩
        let cosHalf := n1.x * avgn.x + n1.y * avgn.y
        let actual := if cosHalf > 1 / 10 then offset / cosHalf else offset
        ⟨curr.x + avgn.x * actual, curr.y + avgn.y * actual⟩
      else curr

/-! ### `src/core/global_planner/grid_generator.py` -/

/-- `ScanPattern` enumeration. -/
inductive ScanPattern
  | PARALLEL | ZIGZAG | SPIRAL | EXPANDING_SQUARE
  deriving DecidableEq

/-- `EntryLocation` enumeration. -/
inductive EntryLocation
  | TOP_LEFT | TOP_RIGHT | BOTTOM_LEFT | BOTTOM_RIGHT | HOME_CLOSEST | AUTO
  deriving DecidableEq

/-- The Python exceptions that the modelled code can raise.
`broadcastError n m` is NumPy's `ValueError` for an elementwise operation
on arrays of incompatible shapes `(n,)` and `(m,)`. -/
inductive PyErr
  | valueError (msg : Str)
  | indexError
  | broadcastError (n m : ℕ)
  deriving DecidableEq

/-- `str(e)` for a modelled exception. -/
def PyErr.text : PyErr → Str
  | .valueError m => m
  | .indexError => "list index out of range".data
  | .broadcastError n m =>
      "operands could not be broadcast together with shapes (".data ++
        natToChars n ++ ",) (".data ++ natToChars m ++ ",) ".data

/-- `CameraConfig` of `grid_generator.py` (defaults from the source). -/
structure CameraConfig where
  sensor_width : ℚ := 132 / 10
  sensor_height : ℚ := 88 / 10
  focal_length : ℚ := 88 / 10
  image_width : ℤ := 4000
  image_height : ℤ := 3000
  deriving DecidableEq

/-- `CameraConfig.get_ground_coverage(altitude)`. -/
def CameraConfig.get_ground_coverage (c : CameraConfig) (altitude : ℚ) : ℚ × ℚ :=
  ((altitude * c.sensor_width) / c.focal_length,
   (altitude * c.sensor_height) / c.focal_length)

/-- `CameraConfig.get_gsd(altitude)` (metres per pixel). -/
def CameraConfig.get_gsd (c : CameraConfig) (altitude : ℚ) : ℚ :=
  (c.get_ground_coverage altitude).1 / (c.image_width : ℚ)

/-- `SurveyConfig` (defaults from the source). -/
structure SurveyConfig where
  altitude : ℚ := 50
  speed : ℚ := 5
  front_overlap : ℚ := 80
  side_overlap : ℚ := 60
  use_manual_spacing : Bool := false
  manual_line_spacing : ℚ := 20
  manual_photo_interval : ℚ := 10
  scan_angle : ℚ := 0
  scan_pattern : ScanPattern := .ZIGZAG
  entry_location : EntryLocation := .AUTO
  boundary_offset : ℚ := 0
  overshoot_distance : ℚ := 0
  leadin_distance : ℚ := 0
  camera : CameraConfig := {}
  add_takeoff : Bool := true
  add_rtl : Bool := true
  deriving DecidableEq

/-- `SurveyConfig.get_line_spacing`. -/
def SurveyConfig.get_line_spacing (c : SurveyConfig) : ℚ :=
  if c.use_manual_spacing then c.manual_line_spacing
  else (c.camera.get_ground_coverage c.altitude).1 * (1 - c.side_overlap / 100)

/-- `SurveyConfig.get_photo_interval`. -/
def SurveyConfig.get_photo_interval (c : SurveyConfig) : ℚ :=
  if c.use_manual_spacing then c.manual_photo_interval
  else (c.camera.get_ground_coverage c.altitude).2 * (1 - c.front_overlap / 100)

/-- `_scanline_intersect`: x-crossings of the horizontal line at `y` with
the polygon's edges, using the half-open test
`(y1 <= y < y2) or (y2 <= y < y1)` and the `1e-10` degeneracy guard. -/
def scanlineIntersect (polygon : List Pt) (y : ℚ) : List ℚ :=
  (polygon.zip (polygon.rotate 1)).filterMap fun e =>
    let y1 := e.1.y
    let y2 := e.2.y
    if (y1 ≤ y ∧ y < y2) ∨ (y2 ≤ y ∧ y < y1) then
      if |y2 - y1| > 1 / 10 ^ 10 then
        some (e.1.x + (y - y1) / (y2 - y1) * (e.2.x - e.1.x))
      else none
    else none

/-- Consecutive disjoint pairs, mirroring `for i in range(0, len - 1, 2)`
(a trailing unpaired element is dropped). -/
def pairUp : List ℚ → List (ℚ × ℚ)
  | x1 :: x2 :: rest => (x1, x2) :: pairUp rest
  | _ => []

/-- Segments the scan line at height `y` contributes: sort the crossings,
pair them, rotate each pair back by the scan angle. -/
def scanSegmentsAt (cos_t sin_t : ℚ) (rotated : List Pt) (y : ℚ) :
    List (Pt × Pt) :=
  let inters := scanlineIntersect rotated y
  if inters.length ≥ 2 then
    (pairUp (List.insertionSort (· ≤ ·) inters)).map fun pr =>
      (⟨cos_t * pr.1 - sin_t * y, sin_t * pr.1 + cos_t * y⟩,
       ⟨cos_t * pr.2 - sin_t * y, sin_t * pr.2 + cos_t * y⟩)
  else []

/-- The `while y < y_max: ... y += spacing` loop, fuel-driven.  For
`spacing ≤ 0` and `y < y_max` the Python loop would not terminate; the
model's fuel is chosen to be exhaustive whenever `spacing > 0`, and the
theorems below assume a positive line spacing. -/
def scanYs (ymax spacing : ℚ) : ℚ → ℕ → List ℚ
  | _, 0 => []
  | y, fuel + 1 => if y < ymax then y :: scanYs ymax spacing (y + spacing) fuel else []

/-- Fuel sufficient for the scan-line loop when `spacing > 0`. -/
def scanFuel (ymin ymax spacing : ℚ) : ℕ :=
  if 0 < spacing then (⌈(ymax - ymin) / spacing⌉).toNat + 1 else 0

/-- `_generate_scan_lines` after `cos_t`/`sin_t` have been computed:
rotate the polygon by −angle, sweep `y` from `y_min + spacing/2`, emit the
paired crossings rotated back.  (For an empty polygon the source's
`min()` would raise; every caller passes ≥ 3 vertices.) -/
def generateScanLinesCore (cos_t sin_t : ℚ) (polygon : List Pt)
    (spacing : ℚ) : List (Pt × Pt) :=
  let rotated := polygon.map fun pt =>
    (⟨cos_t * pt.x + sin_t * pt.y, -sin_t * pt.x + cos_t * pt.y⟩ : Pt)
  match rotated.map Pt.y with
  | [] => []
  | y0 :: yr =>
      let ymin := yr.foldl min y0
      let ymax := yr.foldl max y0
      (scanYs ymax spacing (ymin + spacing / 2)
          (scanFuel ymin ymax spacing)).flatMap
        (scanSegmentsAt cos_t sin_t rotated)

/-- `_generate_scan_lines`: `theta = radians(angle)` and its cosine/sine
(through the model arguments `cosF`, `sinF`), then the core sweep. -/
def generateScanLines (cosF sinF : ℚ → ℚ) (polygon : List Pt)
    (spacing angle : ℚ) : List (Pt × Pt) :=
  let theta := radiansQ angle
  generateScanLinesCore (cosF theta) (sinF theta) polygon spacing

/-- The zigzag `for i, (p1, p2) in enumerate(scan_lines)` loop: even
segments forward, odd segments reversed. -/
def connectZigzagAux (i : ℕ) : List (Pt × Pt) → List Pt
  | [] => []
  | s :: rest =>
      (if i % 2 = 0 then [s.1, s.2] else [s.2, s.1]) ++ connectZigzagAux (i + 1) rest

/-- The pattern dispatch inside `_connect_scan_lines`; patterns without a
branch in the source leave `waypoints` empty. -/
def connectPattern (pattern : ScanPattern) (scan_lines : List (Pt × Pt)) : List Pt :=
  match pattern with
  | .ZIGZAG => connectZigzagAux 0 scan_lines
  | .PARALLEL => scan_lines.flatMap fun s => [s.1, s.2]
  | _ => []

/-- The x-coordinate of a point in the rotated scan frame (rotation by
`−θ` with `cos_t = cos θ`, `sin_t = sin θ`): the axis along which every
sweep line runs.  For `rotated` points produced by `generateScanLinesCore`
this recovers the pre-rotation x-crossing whenever `cos_t² + sin_t² = 1`. -/
def rotX (cos_t sin_t : ℚ) (p : Pt) : ℚ := cos_t * p.x + sin_t * p.y

/-- `_connect_scan_lines`: early-return on no scan lines, then pattern
connection, then the `HOME_CLOSEST` entry adjustment.  In that branch
`waypoints[0]` on an empty connected list raises `IndexError`; on a
non-empty one the very next line, `first_point - home_local`
(grid_generator.py:475), subtracts the 3-element `geo_to_local` result
from a 2-element scan-line waypoint, which NumPy rejects with a broadcast
`ValueError` — so the branch never reaches the distance comparison or the
reversal, and never returns.  (`sqrtF`, the model of the square root
inside `np.linalg.norm`, stays in the signature for the comparison code
this error makes unreachable.) -/
def connectScanLines (sqrtF : ℚ → ℚ) (t : CoordinateTransformer)
    (scan_lines : List (Pt × Pt)) (pattern : ScanPattern)
    (entry : EntryLocation) (home : Option (ℚ × ℚ)) :
    Except PyErr (List Pt) :=
  if scan_lines = [] then .ok []
  else
    let waypoints := connectPattern pattern scan_lines
    match entry, home with
    | .HOME_CLOSEST, some h =>
        let homeLocal := t.geo_to_local h.1 h.2 0
        match waypoints with
        | [] => .error .indexError
        | _ :: _ => .error (.broadcastError 2 3)
    | _, _ => .ok waypoints

/-- The pair loop of `_apply_overshoot_leadin` (even index = sweep start,
odd = sweep end; a trailing unpaired waypoint is dropped by
`range(0, len - 1, 2)`). -/
def overshootLeadinAux (sqrtF : ℚ → ℚ) (overshoot leadin : ℚ) :
    List Pt → List Pt
  | p1 :: p2 :: rest =>
      let dx := p2.x - p1.x
      let dy := p2.y - p1.y
      let length := sqrtF (dx ^ 2 + dy ^ 2)
      (if length > 0 then
        (if leadin > 0 then
          [(⟨p1.x - dx / length * leadin, p1.y - dy / length * leadin⟩ : Pt)]
         else []) ++
        [p1, p2] ++
        (if overshoot > 0 then
          [(⟨p2.x + dx / length * overshoot, p2.y + dy / length * overshoot⟩ : Pt)]
         else [])
       else [p1, p2]) ++ overshootLeadinAux sqrtF overshoot leadin rest
  | _ => []

/-- `_apply_overshoot_leadin`. -/
def applyOvershootLeadin (sqrtF : ℚ → ℚ) (waypoints : List Pt)
    (overshoot leadin : ℚ) : List Pt :=
  if waypoints = [] ∨ (overshoot ≤ 0 ∧ leadin ≤ 0) then waypoints
  else overshootLeadinAux sqrtF overshoot leadin waypoints

/-- `_apply_obstacle_avoidance` — the source returns the waypoints
unchanged (a stub, noted as such by the spec). -/
def applyObstacleAvoidance {α : Type} (waypoints : List Pt)
    (_obstacles : List α) : List Pt :=
  waypoints

/-- `PlannerStatus` enumeration of `planner_base.py`. -/
inductive PlannerStatus
  | IDLE | PLANNING | SUCCESS | FAILED | CANCELLED
  deriving DecidableEq

/-- A geographic waypoint `np.array([lat, lon, alt])`. -/
structure GeoWp where
  lat : ℚ
  lon : ℚ
  alt : ℚ
  deriving DecidableEq

/-- `PlannerResult` (cost `none` models the `float('inf')` default; the
wall-clock `planning_time` and the free-form `metadata` dict are outside
the embedding). -/
structure PlannerResult where
  status : PlannerStatus := .IDLE
  path : List GeoWp := []
  waypoints : List GeoWp := []
  cost : Option ℚ := none
  iterations : ℕ := 0
  message : Str := []
  deriving DecidableEq

/-- `SurveyStatistics` (defaults from the source). -/
structure SurveyStatistics where
  total_distance : ℚ := 0
  survey_distance : ℚ := 0
  turn_distance : ℚ := 0
  num_lines : ℕ := 0
  num_waypoints : ℕ := 0
  estimated_time : ℚ := 0
  coverage_area : ℚ := 0
  num_photos : ℤ := 0
  ground_resolution : ℚ := 0
  deriving DecidableEq

/-- Python `int(q)`: truncation toward zero (`Int.tdiv` of the reduced
numerator by the denominator). -/
def pyTrunc (q : ℚ) : ℤ := q.num.tdiv (q.den : ℤ)

/-- Sum of consecutive `np.linalg.norm` distances along a local path. -/
def pathLength (sqrtF : ℚ → ℚ) : List Pt → ℚ
  | p1 :: p2 :: rest => sqrtF (distSq p2 p1) + pathLength sqrtF (p2 :: rest)
  | _ => 0

/-- `_calculate_statistics`.  `estimated_time` divides by `config.speed`;
the claims below assume a positive speed (for `speed = 0` CPython's
behaviour depends on whether the accumulated distance is a Python float
or a NumPy scalar). -/
def calculateStatistics (sqrtF : ℚ → ℚ) (cfg : SurveyConfig)
    (numScanLines : ℕ) (boundaryLocal : List Pt)
    (waypointsGeo : List GeoWp) (waypointsLocal : List Pt) :
    SurveyStatistics :=
  let total := if waypointsLocal.length ≥ 2 then pathLength sqrtF waypointsLocal else 0
  let interval := cfg.get_photo_interval
  { total_distance := total
    num_lines := numScanLines
    num_waypoints := waypointsGeo.length
    estimated_time := total / cfg.speed
    coverage_area := calculateArea boundaryLocal
    num_photos := if interval > 0 then pyTrunc (total / interval) else 0
    ground_resolution := cfg.camera.get_gsd cfg.altitude }

/-- The failure message `f"Survey Grid 生成失敗: {str(e)}"`. -/
def surveyFailMsg (e : PyErr) : Str :=
  "Survey Grid 生成失敗: ".data ++ e.text

/-- The success message `f"生成 {n} 個航點"`. -/
def surveySuccessMsg (n : ℕ) : Str :=
  "生成 ".data ++ natToChars n ++ " 個航點".data

/-- The body of `generate_survey_grid`'s `try:` block, as an
exception-transparent computation. -/
def surveyBody {α : Type} (cosF sinF sqrtF mLatF mLonF : ℚ → ℚ)
    (cfg : SurveyConfig) (boundary : List (ℚ × ℚ))
    (home : Option (ℚ × ℚ)) (obstacles : List α) :
    Except PyErr PlannerResult :=
  if boundary.length < 3 then
    .error (.valueError "多邊形至少需要3個頂點".data)
  else do
    let centerLat := (boundary.map Prod.fst).sum / (boundary.length : ℚ)
    let centerLon := (boundary.map Prod.snd).sum / (boundary.length : ℚ)
    let t := mkTransformer mLatF mLonF centerLat centerLon
    let boundaryLocal := boundary.map fun p => ptXY (t.geo_to_local p.1 p.2 0)
    let boundaryLocal :=
      if cfg.boundary_offset > 0 then
        offsetPolygon sqrtF boundaryLocal (-cfg.boundary_offset)
      else boundaryLocal
    let lineSpacing := cfg.get_line_spacing
    let scanLines := generateScanLines cosF sinF boundaryLocal lineSpacing cfg.scan_angle
    let waypointsLocal ←
      connectScanLines sqrtF t scanLines cfg.scan_pattern cfg.entry_location home
    let waypointsLocal :=
      if cfg.overshoot_distance > 0 ∨ cfg.leadin_distance > 0 then
        applyOvershootLeadin sqrtF waypointsLocal cfg.overshoot_distance cfg.leadin_distance
      else waypointsLocal
    let waypointsLocal :=
      if obstacles.isEmpty then waypointsLocal
      else applyObstacleAvoidance waypointsLocal obstacles
    let waypointsGeo := waypointsLocal.map fun p =>
      let g := t.local_to_geo p.x p.y
      GeoWp.mk g.1 g.2 cfg.altitude
    let waypointsGeo :=
      match home with
      | some h => if cfg.add_takeoff then GeoWp.mk h.1 h.2 cfg.altitude :: waypointsGeo else waypointsGeo
      | none => waypointsGeo
    let waypointsGeo :=
      match home with
      | some h => if cfg.add_rtl then waypointsGeo ++ [GeoWp.mk h.1 h.2 cfg.altitude] else waypointsGeo
      | none => waypointsGeo
    let stats := calculateStatistics sqrtF cfg scanLines.length boundaryLocal
      waypointsGeo waypointsLocal
    .ok { status := .SUCCESS
          path := waypointsGeo
          waypoints := waypointsGeo
          cost := some stats.total_distance
          iterations := scanLines.length
          message := surveySuccessMsg waypointsGeo.length }

/-- `generate_survey_grid`: the `try`/`except Exception` wrapper that turns
any raised exception into a `FAILED` result carrying the error text. -/
def generate_survey_grid {α : Type} (cosF sinF sqrtF mLatF mLonF : ℚ → ℚ)
    (cfg : SurveyConfig) (boundary : List (ℚ × ℚ))
    (home : Option (ℚ × ℚ)) (obstacles : List α) : PlannerResult :=
  match surveyBody cosF sinF sqrtF mLatF mLonF cfg boundary home obstacles with
  | .ok r => r
  | .error e => { status := .FAILED, message := surveyFailMsg e }

/-! ### `src/sensors/camera_model.py` -/

/-- `CameraSpecs` dataclass. -/
structure CameraSpecs where
  sensor_width_mm : ℚ
  sensor_height_mm : ℚ
  focal_length_mm : ℚ
  image_width_px : ℤ
  image_height_px : ℤ
  deriving DecidableEq

/-- `CameraModel.calculate_gsd(altitude_m)` — transcribed exactly as the
source computes it, including its `focal_length_mm / 1000.0` divisor and
the final `* 100`. -/
def CameraModel.calculate_gsd (s : CameraSpecs) (altitude_m : ℚ) : ℚ :=
  if altitude_m ≤ 0 then 0
  else
    (s.sensor_width_mm / (s.image_width_px : ℚ)) *
      (altitude_m / (s.focal_length_mm / 1000)) * 100

/-! ### `src/core/base/vehicle_base.py` and `src/core/vehicles/multirotor.py` -/

/-- `VehicleState` dataclass: position/velocity triples, heading (rad),
yaw rate (rad/s), timestamp. -/
structure VehicleState where
  position : ℚ × ℚ × ℚ := (0, 0, 0)
  velocity : ℚ × ℚ × ℚ := (0, 0, 0)
  heading : ℚ := 0
  yaw_rate : ℚ := 0
  timestamp : ℚ := 0
  deriving DecidableEq

/-- `VehicleState.speed`: planar speed `np.linalg.norm(velocity[:2])`,
through the square-root model argument. -/
def VehicleState.speed (sqrtF : ℚ → ℚ) (st : VehicleState) : ℚ :=
  sqrtF (st.velocity.1 ^ 2 + st.velocity.2.1 ^ 2)

/-- `VehicleConstraints` (defaults from the source). -/
structure VehicleConstraints where
  max_speed : ℚ := 15
  min_speed : ℚ := 0
  max_vertical_speed : ℚ := 5
  max_acceleration : ℚ := 3
  max_deceleration : ℚ := 4
  max_yaw_rate : ℚ := 90
  max_yaw_acceleration : ℚ := 45
  min_turn_radius : ℚ := 0
  min_altitude : ℚ := 5
  max_altitude : ℚ := 120
  safety_margin : ℚ := 2
  collision_radius : ℚ := 3 / 2
  deriving DecidableEq

/-- The multirotor vehicle model: its constraint set (the
`config.constraints` the methods read) and its mutable state. -/
structure MultirotorModel where
  constraints : VehicleConstraints := {}
  state : VehicleState := {}
  deriving DecidableEq

/-- The two sequential `while` loops of `_normalize_angle`, fuel-driven
(the combined conditional recursion performs the same updates in the
same order). -/
def normalizeAngleAux : ℕ → ℚ → ℚ
  | 0, a => a
  | fuel + 1, a =>
      if a > piFloat then normalizeAngleAux fuel (a - 2 * piFloat)
      else if a < -piFloat then normalizeAngleAux fuel (a + 2 * piFloat)
      else a

/-- `MultirotorModel._normalize_angle` with fuel sufficient for any input. -/
def normalizeAngle (a : ℚ) : ℚ :=
  normalizeAngleAux (2 + (⌈|a| / piFloat⌉).toNat) a

/-- The `for _ in range(steps)` loop of `predict_trajectory`: unicycle
update of the local `x, y, theta`, appending `[x, y, z]` after each step
with `z` fixed. -/
def predictAux (cosF sinF : ℚ → ℚ) (v w dt z : ℚ) :
    ℚ → ℚ → ℚ → ℕ → List (ℚ × ℚ × ℚ)
  | _, _, _, 0 => []
  | x, y, theta, n + 1 =>
      let x' := x + v * cosF theta * dt
      let y' := y + v * sinF theta * dt
      let theta' := normalizeAngle (theta + w * dt)
      (x', y', z) :: predictAux cosF sinF v w dt z x' y' theta' n

/-- `MultirotorModel.predict_trajectory(velocity, dt, horizon)` with
`steps = int(horizon / dt)`.  (For `dt = 0` the source raises
`ZeroDivisionError`; the claims assume `dt > 0`.) -/
def MultirotorModel.predict_trajectory (cosF sinF : ℚ → ℚ)
    (m : MultirotorModel) (v w dt horizon : ℚ) : List (ℚ × ℚ × ℚ) :=
  let steps := (pyTrunc (horizon / dt)).toNat
  predictAux cosF sinF v w dt m.state.position.2.2
    m.state.position.1 m.state.position.2.1 m.state.heading steps

/-- The full effect of a `predict_trajectory` call on the object: the
method unpacks `self.state` into locals and never assigns to `self`, so
the object after the call is returned unchanged alongside the result. -/
def MultirotorModel.predict_trajectory_call (cosF sinF : ℚ → ℚ)
    (m : MultirotorModel) (v w dt horizon : ℚ) :
    List (ℚ × ℚ × ℚ) × MultirotorModel :=
  (m.predict_trajectory cosF sinF v w dt horizon, m)

/-! ### `src/core/local_planner/dwa.py` -/

/-- `DWAConfig` (defaults from the source; `dt` inherited from
`LocalPlannerConfig`). -/
structure DWAConfig where
  dt : ℚ := 1 / 10
  v_resolution : ℚ := 1 / 10
  w_resolution : ℚ := 1 / 10
  predict_time : ℚ := 3
  heading_weight : ℚ := 1
  velocity_weight : ℚ := 1
  obstacle_weight : ℚ := 1
  goal_weight : ℚ := 1
  path_weight : ℚ := 1 / 2
  robot_radius : ℚ := 1 / 2
  obstacle_cost_gain : ℚ := 1
  goal_distance_threshold : ℚ := 1 / 2
  waypoint_lookahead : ℕ := 3
  deriving DecidableEq

/-- The `Obstacle` dataclass of `dwa.py` (static obstacles). -/
structure DWAObstacle where
  position : Pt
  radius : ℚ := 1
  deriving DecidableEq

/-- `_convert_obstacles`: each obstacle becomes `[x, y, radius]`. -/
def convertObstacles (obstacles : List DWAObstacle) : List (ℚ × ℚ × ℚ) :=
  obstacles.map fun o => (o.position.x, o.position.y, o.radius)

/-- IEEE-754 double values as the cost computations see them: a finite
value, ±infinity, or NaN. -/
inductive Cost
  | fin (q : ℚ)
  | inf
  | ninf
  | nan
  deriving DecidableEq

/-- IEEE addition on `Cost`. -/
def Cost.add : Cost → Cost → Cost
  | nan, _ => nan
  | _, nan => nan
  | inf, ninf => nan
  | ninf, inf => nan
  | inf, _ => inf
  | _, inf => inf
  | ninf, _ => ninf
  | _, ninf => ninf
  | fin a, fin b => fin (a + b)

/-- IEEE multiplication of a finite weight with a `Cost`. -/
def Cost.scale (w : ℚ) : Cost → Cost
  | nan => nan
  | fin q => fin (w * q)
  | inf => if 0 < w then inf else if w < 0 then ninf else nan
  | ninf => if 0 < w then ninf else if w < 0 then inf else nan

/-- IEEE `<` on `Cost` (false whenever NaN is involved). -/
def Cost.lt : Cost → Cost → Bool
  | nan, _ => false
  | _, nan => false
  | ninf, ninf => false
  | ninf, _ => true
  | _, ninf => false
  | inf, _ => false
  | fin _, inf => true
  | fin a, fin b => decide (a < b)

/-- IEEE `<=` on `Cost`. -/
def Cost.le : Cost → Cost → Bool
  | nan, _ => false
  | _, nan => false
  | ninf, _ => true
  | _, ninf => false
  | _, inf => true
  | inf, _ => false
  | fin a, fin b => decide (a ≤ b)

/-- IEEE division of a finite numerator by a `Cost`
(`gain / float('inf') = 0.0`). -/
def Cost.divBy (g : ℚ) : Cost → Cost
  | nan => nan
  | inf => fin 0
  | ninf => fin 0
  | fin m => fin (g / m)

/-- The `DWAPlanner` object state that `compute_velocity` touches: its
configuration, the bound vehicle model, the global path and the current
waypoint index (from `LocalPlanner`). -/
structure DWAPlanner where
  config : DWAConfig := {}
  vehicle : MultirotorModel := {}
  global_path : List Pt := []
  current_waypoint_idx : ℕ := 0
  deriving DecidableEq

/-- `np.arange(start, stop, step)` for a positive step: the
`max 0 ⌈(stop − start)/step⌉` evenly spaced values. -/
def arangeQ (start stop step : ℚ) : List ℚ :=
  let n := if 0 < step then (⌈(stop - start) / step⌉).toNat else 0
  (List.range n).map fun k => start + (k : ℚ) * step

/-- `_calculate_dynamic_window`: velocity and yaw-rate bounds from the
constraint set intersected with the acceleration window. -/
def dynamicWindow (sqrtF : ℚ → ℚ) (c : VehicleConstraints)
    (state : VehicleState) (dt : ℚ) : ℚ × ℚ × ℚ × ℚ :=
  let currentV := state.speed sqrtF
  let currentW := state.yaw_rate
  let wMaxLimit := radiansQ c.max_yaw_rate
  let wAccel := radiansQ c.max_yaw_acceleration * dt
  (max c.min_speed (currentV - c.max_deceleration * dt),
   min c.max_speed (currentV + c.max_acceleration * dt),
   max (-wMaxLimit) (currentW - wAccel),
   min wMaxLimit (currentW + wAccel))

/-- Inner obstacle loop of `_calculate_obstacle_cost` for one pose:
update the running minimum, return `none` (an early
`return float('inf')`) as soon as a pose penetrates an effective radius. -/
def obstaclePoseLoop (sqrtF : ℚ → ℚ) (robotRadius : ℚ) (pose : ℚ × ℚ × ℚ) :
    List (ℚ × ℚ × ℚ) → Cost → Option Cost
  | [], m => some m
  | o :: rest, m =>
      let dist := sqrtF ((pose.1 - o.1) ^ 2 + (pose.2.1 - o.2.1) ^ 2)
      let eff := dist - o.2.2 - robotRadius
      let m' := if Cost.lt (.fin eff) m then .fin eff else m
      if eff ≤ 0 then none else obstaclePoseLoop sqrtF robotRadius pose rest m'

/-- Outer pose loop of `_calculate_obstacle_cost`. -/
def obstacleTrajLoop (sqrtF : ℚ → ℚ) (robotRadius : ℚ)
    (obstacles : List (ℚ × ℚ × ℚ)) :
    List (ℚ × ℚ × ℚ) → Cost → Option Cost
  | [], m => some m
  | p :: ps, m =>
      match obstaclePoseLoop sqrtF robotRadius p obstacles m with
      | none => none
      | some m' => obstacleTrajLoop sqrtF robotRadius obstacles ps m'

/-- `_calculate_obstacle_cost`. -/
def calculateObstacleCost (sqrtF : ℚ → ℚ) (cfg : DWAConfig)
    (trajectory : List (ℚ × ℚ × ℚ)) (obstacles : List (ℚ × ℚ × ℚ)) : Cost :=
  if obstacles = [] then .fin 0
  else
    match obstacleTrajLoop sqrtF cfg.robot_radius obstacles trajectory .inf with
    | none => .inf
    | some m =>
        if Cost.le m (.fin 0) then .inf else Cost.divBy cfg.obstacle_cost_gain m

/-- `_calculate_heading_cost` (`np.arctan2` through the model argument
`atan2F`, taking `y` before `x` as NumPy does). -/
def calculateHeadingCost (atan2F : ℚ → ℚ → ℚ) (state : VehicleState)
    (trajectory : List (ℚ × ℚ × ℚ)) (goal : Pt) : Cost :=
  match trajectory with
  | [] => .inf
  | p0 :: _ =>
      let endPos := trajectory.getLastD p0
      let targetHeading := atan2F (goal.y - endPos.2.1) (goal.x - endPos.1)
      let currentHeading :=
        if trajectory.length ≥ 2 then
          let prev := trajectory.dropLast.getLastD p0
          atan2F (endPos.2.1 - prev.2.1) (endPos.1 - prev.1)
        else state.heading
      let d := |targetHeading - currentHeading|
      .fin (min d (2 * piFloat - d))

/-- `_calculate_goal_cost`. -/
def calculateGoalCost (sqrtF : ℚ → ℚ) (trajectory : List (ℚ × ℚ × ℚ))
    (goal : Pt) : Cost :=
  match trajectory with
  | [] => .inf
  | p0 :: _ =>
      let endPos := trajectory.getLastD p0
      .fin (sqrtF ((goal.x - endPos.1) ^ 2 + (goal.y - endPos.2.1) ^ 2))

/-- The inner `min` scan of `_calculate_path_cost` over a non-empty
global path (the source folds from `float('inf')`; over a non-empty list
this is the plain minimum of the distances). -/
def minDistToPath (sqrtF : ℚ → ℚ) (p : ℚ × ℚ × ℚ) (q0 : Pt) (qs : List Pt) : ℚ :=
  qs.foldl (fun m q => min m (sqrtF ((p.1 - q.x) ^ 2 + (p.2.1 - q.y) ^ 2)))
    (sqrtF ((p.1 - q0.x) ^ 2 + (p.2.1 - q0.y) ^ 2))

/-- `_calculate_path_cost`. -/
def calculatePathCost (sqrtF : ℚ → ℚ) (globalPath : List Pt)
    (trajectory : List (ℚ × ℚ × ℚ)) : Cost :=
  match globalPath, trajectory with
  | [], _ => .fin 0
  | _, [] => .fin 0
  | q0 :: qs, _ :: _ =>
      let total := (trajectory.map fun p => minDistToPath sqrtF p q0 qs).sum
      .fin (total / (trajectory.length : ℚ))

/-- `_evaluate_trajectory`: the weighted five-term sum, in IEEE `Cost`
arithmetic (the `velocity_cost` term `max_speed - v` is always finite). -/
def evaluateTrajectory (atan2F : ℚ → ℚ → ℚ) (sqrtF : ℚ → ℚ)
    (cfg : DWAConfig) (constraints : VehicleConstraints)
    (globalPath : List Pt) (trajectory : List (ℚ × ℚ × ℚ)) (v : ℚ)
    (state : VehicleState) (goal : Pt)
    (obstacles : List (ℚ × ℚ × ℚ)) : Cost :=
  if trajectory = [] then .inf
  else
    let headingCost := calculateHeadingCost atan2F state trajectory goal
    let velocityCost : Cost := .fin (constraints.max_speed - v)
    let obstacleCost := calculateObstacleCost sqrtF cfg trajectory obstacles
    let goalCost := calculateGoalCost sqrtF trajectory goal
    let pathCost := calculatePathCost sqrtF globalPath trajectory
    (((Cost.scale cfg.heading_weight headingCost).add
        (Cost.scale cfg.velocity_weight velocityCost)).add
      (Cost.scale cfg.obstacle_weight obstacleCost)).add
      ((Cost.scale cfg.goal_weight goalCost).add
        (Cost.scale cfg.path_weight pathCost))

/-- `_update_current_goal`: `none` when the global path is empty,
otherwise the waypoint `lookahead` steps ahead (clamped to the last). -/
def updateCurrentGoal (p : DWAPlanner) : Option Pt :=
  match p.global_path with
  | [] => none
  | q0 :: _ =>
      some (p.global_path.getD
        (min (p.current_waypoint_idx + p.config.waypoint_lookahead)
          (p.global_path.length - 1)) q0)

/-- `_is_goal_reached`: strict comparison of the planar distance with
`goal_distance_threshold`. -/
def dwaGoalReached (sqrtF : ℚ → ℚ) (cfg : DWAConfig)
    (state : VehicleState) (goal : Pt) : Bool :=
  sqrtF ((state.position.1 - goal.x) ^ 2 + (state.position.2.1 - goal.y) ^ 2)
    < cfg.goal_distance_threshold

/-- `advance_waypoint` of the `LocalPlanner` base class. -/
def advanceWaypoint (p : DWAPlanner) : DWAPlanner :=
  if p.current_waypoint_idx < p.global_path.length - 1 then
    { p with current_waypoint_idx := p.current_waypoint_idx + 1 }
  else p

/-- The velocity-sampling sweep of `compute_velocity`: fold over
`v_samples × w_samples`, predicting the trajectory of each candidate and
keeping the first strictly cheaper one; starts at `((0, 0), ∞)`. -/
def dwaSweep (atan2F : ℚ → ℚ → ℚ) (cosF sinF sqrtF : ℚ → ℚ)
    (p : DWAPlanner) (state : VehicleState) (goal : Pt)
    (obstacles : List (ℚ × ℚ × ℚ)) (vs ws : List ℚ) : (ℚ × ℚ) × Cost :=
  vs.foldl
    (fun acc v =>
      ws.foldl
        (fun acc w =>
          let trajectory :=
            p.vehicle.predict_trajectory cosF sinF v w p.config.dt p.config.predict_time
          let cost := evaluateTrajectory atan2F sqrtF p.config
            p.vehicle.constraints p.global_path trajectory v state goal obstacles
          if Cost.lt cost acc.2 then ((v, w), cost) else acc)
        acc)
    ((0, 0), Cost.inf)

/-- The main sampling-and-evaluation path of `compute_velocity`,
entered once a goal is fixed. -/
def dwaMain (atan2F : ℚ → ℚ → ℚ) (cosF sinF sqrtF : ℚ → ℚ)
    (p : DWAPlanner) (state : VehicleState) (goal : Pt)
    (obstacles : List DWAObstacle) : ℚ × ℚ :=
  let w := dynamicWindow sqrtF p.vehicle.constraints state p.config.dt
  let obstacleList := convertObstacles obstacles
  let vs := arangeQ w.1 (w.2.1 + p.config.v_resolution) p.config.v_resolution
  let ws := arangeQ w.2.2.1 (w.2.2.2 + p.config.w_resolution) p.config.w_resolution
  (dwaSweep atan2F cosF sinF sqrtF p state goal obstacleList vs ws).1

/-- `DWAPlanner.compute_velocity`: update the bound vehicle's state,
resolve the current goal (advancing past a reached waypoint), then run
the sampling sweep.  Returns the `(v, w)` command together with the
planner object after the call — the source's entire returned value is
the bare pair. -/
def DWAPlanner.compute_velocity (atan2F : ℚ → ℚ → ℚ) (cosF sinF sqrtF : ℚ → ℚ)
    (p : DWAPlanner) (current_state : VehicleState)
    (obstacles : List DWAObstacle) : (ℚ × ℚ) × DWAPlanner :=
  let p := { p with vehicle := { p.vehicle with state := current_state } }
  match updateCurrentGoal p with
  | none => ((0, 0), p)
  | some goal =>
      if dwaGoalReached sqrtF p.config current_state goal then
        let p := advanceWaypoint p
        match updateCurrentGoal p with
        | none => ((0, 0), p)
        | some goal2 =>
            (dwaMain atan2F cosF sinF sqrtF p current_state goal2 obstacles, p)
      else
        (dwaMain atan2F cosF sinF sqrtF p current_state goal obstacles, p)

/-- Number of characters after the last `'.'` of a string — the count of
printed fractional digits. -/
def fracDigits (s : Str) : ℕ := (s.reverse.takeWhile (· ≠ '.')).length

/-- The concrete waypoint of scenario S6: a navigation waypoint at
(23.7, 120.4, 50) with `seq = 3` and default frame/params/flags. -/
def wpS6 : Waypoint :=
  { seq := 3, command := .NAV_WAYPOINT, lat := 237 / 10, lon := 1204 / 10, alt := 50 }

/-- A planner fixture whose dynamic window degenerates to the single
candidate `(0, 0)`: zero speed bounds and zero yaw-rate bound, one global
waypoint at `(10, 0)`. -/
def pinnedPlanner : DWAPlanner :=
  { vehicle := { constraints :=
      { max_speed := 0, min_speed := 0, max_yaw_rate := 0 } },
    global_path := [⟨10, 0⟩] }

/-! ### `src/core/global_planner/astar.py`

The A* search works with IEEE doubles whose exact values here lie in
`ℚ[√2]` (the only square roots a run over the modelled cell set takes are
of `25` and `50`), represented exactly by `Q2`.  Monotone comparisons of a
square root with a nonnegative constant are modelled by comparing the
squares (`√d ≤ 1 ↔ d ≤ 1`, `√d < 1e-6 ↔ d < 1e-12`). -/

/-- The exact real `a + b·√2`. -/
structure Q2 where
  a : ℚ
  b : ℚ
  deriving DecidableEq

/-- `0 < a + b·√2`, decided exactly by sign analysis and squaring. -/
def Q2.isPos (x : Q2) : Bool :=
  if x.b = 0 then decide (0 < x.a)
  else if 0 < x.b then decide (0 ≤ x.a) || decide (x.a ^ 2 < 2 * x.b ^ 2)
  else decide (0 < x.a) && decide (2 * x.b ^ 2 < x.a ^ 2)

/-- Exact `<` on `ℚ[√2]`. -/
def Q2.lt (x y : Q2) : Bool := Q2.isPos ⟨y.a - x.a, y.b - x.b⟩

/-- Addition in `ℚ[√2]`. -/
def Q2.add (x y : Q2) : Q2 := ⟨x.a + y.a, x.b + y.b⟩

/-- Fuel-driven binary search for the integer square root: the largest
`r ∈ [lo, hi]` with `r² ≤ n` (structural, so that kernel reduction works;
`Nat.sqrt` is defined by well-founded recursion and does not reduce). -/
def natSqrtBin (n : ℕ) : ℕ → ℕ → ℕ → ℕ
  | 0, lo, _ => lo
  | f + 1, lo, hi =>
      if lo < hi then
        let mid := (lo + hi + 1) / 2
        if mid ^ 2 ≤ n then natSqrtBin n f mid hi
        else natSqrtBin n f lo (mid - 1)
      else lo

/-- Integer square root (64 halvings cover every 64-bit radicand). -/
def natSqrtE (n : ℕ) : ℕ := natSqrtBin n 64 0 n

/-- The exact rational square root, when it exists. -/
def ratSqrt? (q : ℚ) : Option ℚ :=
  if 0 ≤ q then
    let n := natSqrtE q.num.toNat
    let d := natSqrtE q.den
    if (n : ℤ) ^ 2 = q.num ∧ d ^ 2 = q.den then some ((n : ℚ) / (d : ℚ))
    else none
  else none

/-- Square root into `ℚ[√2]` (exact for arguments of the form `r²` or
`2r²`; every cost a run over the modelled cell set computes is one of
these — the fallback `0` is never reached there). -/
def sqrtQ2 (q : ℚ) : Q2 :=
  match ratSqrt? q with
  | some r => ⟨r, 0⟩
  | none =>
      match ratSqrt? (q / 2) with
      | some r => ⟨0, r⟩
      | none => ⟨0, 0⟩

/-- `HeuristicType.manhattan`. -/
def HeuristicType.manhattan (p1 p2 : Pt) : ℚ :=
  |p1.x - p2.x| + |p1.y - p2.y|

/-- `AStarNode` with the fields the search reads: `dataclass(order=True)`
compares nodes by `f_cost` alone (every other field is `compare=False`),
and the `parent` pointer is never consulted (`_reconstruct_path` uses
`came_from`), so it is not carried. -/
structure ANode where
  f : Q2
  g : Q2
  h : Q2
  pos : Pt
  deriving DecidableEq

/-- Out-of-range fallback for list indexing; `heapq` never indexes out of
range, so it is never produced. -/
def dummyNode : ANode := ⟨⟨0, 0⟩, ⟨0, 0⟩, ⟨0, 0⟩, ⟨0, 0⟩⟩

/-- CPython `heapq._siftdown` (exact transcription; the decreasing `pos`
bounds the iteration count, so `pos` itself serves as fuel). -/
def siftdownAux (startpos : ℕ) (newitem : ANode) :
    ℕ → List ANode → ℕ → List ANode
  | 0, heap, pos => heap.set pos newitem
  | fuel + 1, heap, pos =>
      if startpos < pos then
        let parentpos := (pos - 1) / 2
        let parent := heap.getD parentpos dummyNode
        if Q2.lt newitem.f parent.f then
          siftdownAux startpos newitem fuel (heap.set pos parent) parentpos
        else heap.set pos newitem
      else heap.set pos newitem

/-- `heapq.heappush`: append, then sift down from the new last slot. -/
def heappush (heap : List ANode) (item : ANode) : List ANode :=
  siftdownAux 0 item heap.length (heap ++ [item]) heap.length

/-- The loop of CPython `heapq._siftup` (`childpos` at least doubles each
round, so `endpos` is ample fuel); returns the heap and the final `pos`. -/
def siftupAux (endpos : ℕ) : ℕ → List ANode → ℕ → List ANode × ℕ
  | 0, heap, pos => (heap, pos)
  | fuel + 1, heap, pos =>
      let childpos := 2 * pos + 1
      if childpos < endpos then
        let rightpos := childpos + 1
        let childpos :=
          if rightpos < endpos ∧
              Q2.lt (heap.getD childpos dummyNode).f
                (heap.getD rightpos dummyNode).f = false then rightpos
          else childpos
        siftupAux endpos fuel (heap.set pos (heap.getD childpos dummyNode))
          childpos
      else (heap, pos)

/-- CPython `heapq._siftup`: bubble the hole to a leaf, place `newitem`,
then sift it down towards the original position. -/
def siftup (opos : ℕ) (heap : List ANode) (newitem : ANode) : List ANode :=
  let endpos := heap.length
  let pr := siftupAux endpos endpos heap opos
  siftdownAux opos newitem pr.2 (pr.1.set pr.2 newitem) pr.2

/-- `heapq.heappop` on a non-empty heap: pop the last element, move it to
the root, sift up; returns the old root and the new heap. -/
def heappop (heap : List ANode) : ANode × List ANode :=
  let lastelt := heap.getLastD dummyNode
  let rest := heap.dropLast
  if rest.isEmpty then (lastelt, [])
  else
    let returnitem := rest.getD 0 dummyNode
    (returnitem, siftup 0 (rest.set 0 lastelt) lastelt)

/-- `_calculate_cost`: Euclidean distance, in `ℚ[√2]`. -/
def calculateAStarCost (p1 p2 : Pt) : Q2 := sqrtQ2 (distSq p1 p2)

/-- `_is_goal_reached` with the default tolerance 1.0
(`√d ≤ 1 ↔ d ≤ 1`). -/
def isGoalReached (position goal : Pt) : Bool :=
  distSq position goal ≤ 1

/-- `_get_neighbors`.  `validF` models `_is_valid_position` (the boundary
test and the pluggable collision-checker oracle).  The direct neighbor:
when the distance to the goal is irrational the model substitutes the
current position — freshly added to the closed set, hence skipped — which
matches every configuration whose valid positions all have rational
coordinates, since the true direct neighbor then has an irrational
coordinate and is rejected as invalid. -/
def getAStarNeighbors (validF : Pt → Bool) (step : ℚ)
    (position goal : Pt) : List Pt :=
  let dirs : List (ℚ × ℚ) :=
    [(1, 0), (-1, 0), (0, 1), (0, -1), (1, 1), (1, -1), (-1, 1), (-1, -1)]
  let neighbors := dirs.filterMap fun d =>
    let np : Pt := ⟨position.x + d.1 * step, position.y + d.2 * step⟩
    if validF np then some np else none
  let dx := goal.x - position.x
  let dy := goal.y - position.y
  let d2 := dx ^ 2 + dy ^ 2
  if d2 < 1 / 10 ^ 12 then neighbors
  else
    let dn : Pt :=
      match ratSqrt? d2 with
      | some dist =>
          ⟨position.x + dx / dist * step, position.y + dy / dist * step⟩
      | none => position
    if validF dn ∧ dn ∉ neighbors then neighbors ++ [dn] else neighbors

/-- `_reconstruct_path` (fuel-driven `while current in came_from`; the
prepend-accumulator realises the final `path.reverse()`). -/
def reconstructAux (cf : List (Pt × Pt)) : ℕ → Pt → List Pt → List Pt
  | 0, _, acc => acc
  | fuel + 1, current, acc =>
      match List.lookup current cf with
      | some nxt => reconstructAux cf fuel nxt (nxt :: acc)
      | none => acc

/-- `_reconstruct_path`. -/
def reconstructPath (cf : List (Pt × Pt)) (current : Pt) : List Pt :=
  reconstructAux cf (cf.length + 1) current [current]

/-- The `_astar_search` loop state.  `g_scores` and `came_from` are
association lists with newest-first shadowing (dict semantics for lookup);
`expanded` is the instrumentation trace of `(position, g_cost)` for every
node taken from the queue and expanded — the sequence the claim speaks
about. -/
structure AStarState where
  open_set : List ANode
  closed : List Pt
  g_scores : List (Pt × Q2)
  came_from : List (Pt × Pt)
  expanded : List (Pt × Q2)
  result : Option (List Pt)
  iterations : ℕ
  deriving DecidableEq

/-- `_astar_search` initialisation (g = 0, f = h = weighted heuristic). -/
def astarInit (heuristicF : Pt → Pt → ℚ) (hw : ℚ) (start goal : Pt) :
    AStarState :=
  let hs : Q2 := ⟨heuristicF start goal * hw, 0⟩
  { open_set := heappush [] ⟨hs, ⟨0, 0⟩, hs, start⟩
    closed := []
    g_scores := [(start, ⟨0, 0⟩)]
    came_from := []
    expanded := []
    result := none
    iterations := 0 }

/-- One iteration of the `while open_set and iterations < max_iterations`
loop of `_astar_search`: pop the root, check the goal, add the position
to the closed set, explore neighbours — skipping closed ones and pushing
a fresh node whenever the position is new or the tentative g improves.
Note the pop performs **no** closed-set membership test. -/
def astarStep (validF : Pt → Bool) (heuristicF : Pt → Pt → ℚ)
    (hw step : ℚ) (goal : Pt) (st : AStarState) : AStarState :=
  if st.open_set.isEmpty ∨ ¬(st.iterations < 10000) ∨ st.result.isSome then
    st
  else
    let pr := heappop st.open_set
    let current := pr.1
    let open1 := pr.2
    let cpos := current.pos
    let it := st.iterations + 1
    if isGoalReached cpos goal then
      { st with
        open_set := open1
        iterations := it
        result := some (reconstructPath st.came_from cpos) }
    else
      let closed1 := if cpos ∈ st.closed then st.closed else cpos :: st.closed
      let neighbors := getAStarNeighbors validF step cpos goal
      neighbors.foldl
        (fun acc np =>
          if np ∈ closed1 then acc
          else
            let tentative := Q2.add current.g (calculateAStarCost cpos np)
            let better :=
              match List.lookup np acc.g_scores with
              | none => true
              | some old => Q2.lt tentative old
            if better then
              let hc : Q2 := ⟨heuristicF np goal * hw, 0⟩
              { acc with
                came_from := (np, cpos) :: acc.came_from
                g_scores := (np, tentative) :: acc.g_scores
                open_set := heappush acc.open_set
                  ⟨Q2.add tentative hc, tentative, hc, np⟩ }
            else acc)
        { st with
          open_set := open1
          closed := closed1
          expanded := st.expanded ++ [(cpos, current.g)]
          iterations := it }

/-- The first `n` iterations of `_astar_search` (a stopped prefix of the
full run: the guards in `astarStep` freeze the state on exhaustion, goal
or iteration limit). -/
def astarRun (validF : Pt → Bool) (heuristicF : Pt → Pt → ℚ)
    (hw step : ℚ) (start goal : Pt) : ℕ → AStarState
  | 0 => astarInit heuristicF hw start goal
  | n + 1 => astarStep validF heuristicF hw step goal
      (astarRun validF heuristicF hw step start goal n)

/-- The valid-position set of the concrete A* configuration: ten cells on
the 5 m lattice (a start block, a south detour and two columns near the
goal side). -/
def astarCells : List Pt :=
  [⟨30, 5⟩, ⟨25, 5⟩, ⟨20, 5⟩, ⟨30, 0⟩, ⟨25, 0⟩,
   ⟨25, -5⟩, ⟨20, -5⟩, ⟨15, -5⟩, ⟨15, 0⟩, ⟨15, 5⟩]

/-- `_astar_search` on the concrete configuration: start `(30, 5)`, goal
`(0, 0)`, `step_size = 5`, Manhattan heuristic with weight 2, the ten-cell
valid set as the position oracle. -/
def astarDemo (n : ℕ) : AStarState :=
  astarRun (fun p => decide (p ∈ astarCells)) HeuristicType.manhattan 2 5
    ⟨30, 5⟩ ⟨0, 0⟩ n

/-! ## Theorems -/

theorem digitChar_isDigit {d : ℕ} (h : d < 10) : (Nat.digitChar d).isDigit = true := by
  interval_cases d <;> decide

theorem digitVal_digitChar {d : ℕ} (h : d < 10) : digitVal (Nat.digitChar d) = d := by
  interval_cases d <;> decide

theorem isDigit_toNat {c : Char} (h : c.isDigit = true) :
    48 ≤ c.toNat ∧ c.toNat ≤ 57 := by
  simp only [Char.isDigit, Bool.and_eq_true, decide_eq_true_eq] at h
  exact ⟨h.1, h.2⟩

theorem digit_ne {c : Char} (h : c.isDigit = true) :
    c ≠ '\t' ∧ c ≠ '.' ∧ c ≠ '-' ∧ c ≠ '+' ∧ c ≠ '#' ∧ c ≠ 'Q' ∧
      isSpaceChar c = false := by
  obtain ⟨h1, h2⟩ := isDigit_toNat h
  have ne : ∀ a : Char, a.toNat < 48 ∨ 57 < a.toNat → c ≠ a := by
    intro a ha e
    subst e
    omega
  refine ⟨ne _ (by decide), ne _ (by decide), ne _ (by decide), ne _ (by decide),
    ne _ (by decide), ne _ (by decide), ?_⟩
  simp only [isSpaceChar, Bool.or_eq_false_iff, decide_eq_false_iff_not]
  refine ⟨⟨⟨⟨⟨ne _ (by decide), ne _ (by decide)⟩, ne _ (by decide)⟩,
    ne _ (by decide)⟩, ne _ (by decide)⟩, ne _ (by decide)⟩

theorem natCharsRevAux_digits {fuel n : ℕ} :
    ∀ c ∈ natCharsRevAux fuel n, c.isDigit = true := by
  induction fuel generalizing n with
  | zero => simp [natCharsRevAux]
  | succ fuel ih =>
      intro c hc
      by_cases hn : n = 0
      · subst hn; simp [natCharsRevAux] at hc
      · rw [natCharsRevAux, if_neg hn] at hc
        rcases List.mem_cons.mp hc with h | h
        · subst h; exact digitChar_isDigit (Nat.mod_lt _ (by omega))
        · exact ih _ h

theorem natCharsRevAux_val {fuel n : ℕ} (h : n ≤ fuel) :
    (natCharsRevAux fuel n).foldr (fun c a => 10 * a + digitVal c) 0 = n := by
  induction fuel generalizing n with
  | zero =>
      have : n = 0 := by omega
      subst this
      simp [natCharsRevAux]
  | succ fuel ih =>
      by_cases hn : n = 0
      · subst hn; simp [natCharsRevAux]
      · rw [natCharsRevAux, if_neg hn]
        have hlt : n / 10 < n := Nat.div_lt_self (Nat.pos_of_ne_zero hn) (by norm_num)
        have hdiv : n / 10 ≤ fuel := by omega
        simp only [List.foldr_cons, ih hdiv,
          digitVal_digitChar (Nat.mod_lt _ (by omega : (0:ℕ) < 10))]
        omega

theorem natCharsRevAux_ne_nil {fuel n : ℕ} (h : n ≤ fuel) (hn : n ≠ 0) :
    natCharsRevAux fuel n ≠ [] := by
  cases fuel with
  | zero => omega
  | succ fuel => rw [natCharsRevAux, if_neg hn]; simp

theorem natToChars_digits {n : ℕ} : ∀ c ∈ natToChars n, c.isDigit = true := by
  unfold natToChars
  split
  · intro c hc
    simp at hc
    subst hc
    decide
  · intro c hc
    exact natCharsRevAux_digits c (List.mem_reverse.mp hc)

theorem natToChars_ne_nil {n : ℕ} : natToChars n ≠ [] := by
  unfold natToChars
  split
  · simp
  · simpa using natCharsRevAux_ne_nil (Nat.le_succ n) (by assumption)

theorem digitsVal_natToChars {n : ℕ} : digitsVal (natToChars n) = n := by
  unfold natToChars
  split
  · next h => simp [digitsVal, digitVal, h]
  · next h =>
      unfold digitsVal
      rw [List.foldl_reverse]
      have := natCharsRevAux_val (Nat.le_succ n)
      simpa using this

theorem parseNat?_natToChars {n : ℕ} : parseNat? (natToChars n) = some n := by
  unfold parseNat?
  rw [if_pos, digitsVal_natToChars]
  simp only [Bool.and_eq_true, ne_eq, decide_eq_true_eq, List.all_eq_true]
  exact ⟨by simpa using natToChars_ne_nil, fun c hc => natToChars_digits c hc⟩

theorem natToChars_headDigit {n : ℕ} :
    ∃ c cs, natToChars n = c :: cs ∧ c.isDigit = true := by
  rcases hl : natToChars n with _ | ⟨c, cs⟩
  · exact absurd hl natToChars_ne_nil
  · exact ⟨c, cs, rfl, by have := natToChars_digits (n := n) c; rw [hl] at this; exact this (by simp)⟩

theorem parseInt?_intToChars {i : ℤ} : parseInt? (intToChars i) = some i := by
  unfold intToChars
  split
  · next h =>
      simp only [parseInt?]
      rw [if_pos trivial, parseNat?_natToChars]
      show some (-(i.natAbs : ℤ)) = some i
      simp only [Option.some.injEq]
      omega
  · next h =>
      obtain ⟨c, cs, hcs, hdig⟩ := natToChars_headDigit (n := i.toNat)
      rw [hcs]
      obtain ⟨-, -, hm, hp, -, -, -⟩ := digit_ne hdig
      simp only [parseInt?]
      rw [if_neg hm, if_neg hp, ← hcs, parseNat?_natToChars]
      show some ((i.toNat : ℤ)) = some i
      simp only [Option.some.injEq]
      omega

theorem rhe_intCast (z : ℤ) : rhe (z : ℚ) = z := by
  simp [rhe]

theorem rhe_nonneg {q : ℚ} (h : 0 ≤ q) : 0 ≤ rhe q := by
  have hf : (0 : ℤ) ≤ ⌊q⌋ := Int.floor_nonneg.mpr h
  unfold rhe
  split_ifs <;> omega

theorem rhe_nonpos {q : ℚ} (h : q ≤ 0) : rhe q ≤ 0 := by
  have hf : ⌊q⌋ ≤ 0 := Int.floor_nonpos h
  unfold rhe
  split_ifs with h1 h2 h3
  · exact hf
  · have hr : (1 : ℚ) / 2 < q - ⌊q⌋ := h2
    have hq0 : (⌊q⌋ : ℚ) < 0 := by linarith
    have : ⌊q⌋ < 0 := by exact_mod_cast hq0
    omega
  · exact hf
  · have hr : (1 : ℚ) / 2 ≤ q - ⌊q⌋ := le_of_not_gt h1
    have : (⌊q⌋ : ℚ) ≤ -(1 / 2) := by linarith
    have : ⌊q⌋ < 0 := by
      by_contra hc
      push_neg at hc
      have : (0 : ℚ) ≤ (⌊q⌋ : ℚ) := by exact_mod_cast hc
      linarith
    omega

theorem splitOnSep_cons (sep c : Char) (t : Str) :
    splitOnSep sep (c :: t) =
      if c = sep then [] :: splitOnSep sep t
      else
        match splitOnSep sep t with
        | [] => [[c]]
        | f :: r => (c :: f) :: r := rfl

theorem splitOnSep_ne_nil (sep : Char) (l : Str) : splitOnSep sep l ≠ [] := by
  induction l with
  | nil => simp [splitOnSep]
  | cons c t ih =>
      rw [splitOnSep_cons]
      split
      · simp
      · rcases h : splitOnSep sep t with _ | ⟨f, r⟩
        · exact absurd h ih
        · simp

theorem splitOnSep_no_sep {sep : Char} {l : Str} (h : ∀ c ∈ l, c ≠ sep) :
    splitOnSep sep l = [l] := by
  induction l with
  | nil => rfl
  | cons c t ih =>
      rw [splitOnSep_cons, if_neg (h c (by simp)),
        ih fun d hd => h d (List.mem_cons_of_mem _ hd)]

theorem splitOnSep_append {sep : Char} {a b : Str} (h : ∀ c ∈ a, c ≠ sep) :
    splitOnSep sep (a ++ sep :: b) = a :: splitOnSep sep b := by
  induction a with
  | nil => simp [splitOnSep_cons]
  | cons c t ih =>
      rw [List.cons_append, splitOnSep_cons, if_neg (h c (by simp)),
        ih fun d hd => h d (List.mem_cons_of_mem _ hd)]

theorem digitsVal_replicate_zero_append (k : ℕ) (cs : Str) :
    digitsVal (List.replicate k '0' ++ cs) = digitsVal cs := by
  unfold digitsVal
  rw [List.foldl_append]
  congr 1
  induction k with
  | zero => rfl
  | succ k ih => rw [List.replicate_succ, List.foldl_cons]; simpa [digitVal] using ih

theorem natCharsRevAux_length_le {fuel n k : ℕ} (h : n ≤ fuel) (hk : n < 10 ^ k) :
    (natCharsRevAux fuel n).length ≤ k := by
  induction fuel generalizing n k with
  | zero => simp [natCharsRevAux]
  | succ fuel ih =>
      by_cases hn : n = 0
      · subst hn; simp [natCharsRevAux]
      · rw [natCharsRevAux, if_neg hn]
        cases k with
        | zero => simp at hk; omega
        | succ k =>
            have hlt : n / 10 < n := Nat.div_lt_self (Nat.pos_of_ne_zero hn) (by norm_num)
            have h1 : n / 10 ≤ fuel := by omega
            have h2 : n / 10 < 10 ^ k := by
              rw [Nat.div_lt_iff_lt_mul (by norm_num)]
              calc n < 10 ^ (k + 1) := hk
                _ = 10 ^ k * 10 := by ring
            simpa using ih h1 h2

theorem natToChars_length_le {n k : ℕ} (h0 : 0 < k) (h : n < 10 ^ k) :
    (natToChars n).length ≤ k := by
  unfold natToChars
  split
  · simpa using h0
  · simpa using natCharsRevAux_length_le (Nat.le_succ n) h

theorem padZeros_length {w : ℕ} {cs : Str} (h : cs.length ≤ w) :
    (padZeros w cs).length = w := by
  simp [padZeros]
  omega

theorem padZeros_digits {w : ℕ} {cs : Str} (h : ∀ c ∈ cs, c.isDigit = true) :
    ∀ c ∈ padZeros w cs, c.isDigit = true := by
  intro c hc
  rcases List.mem_append.mp hc with h1 | h1
  · rw [List.eq_of_mem_replicate h1]; decide
  · exact h c h1

theorem parseRatCore_shape {a b d : ℕ} (hd : 0 < d) (hb : b < 10 ^ d) :
    parseRatCore (natToChars a ++ '.' :: padZeros d (natToChars b)) =
      some ((a : ℚ) + (b : ℚ) / 10 ^ d) := by
  have hsplit : splitOnSep '.' (natToChars a ++ '.' :: padZeros d (natToChars b)) =
      [natToChars a, padZeros d (natToChars b)] := by
    rw [splitOnSep_append fun c hc => (digit_ne (natToChars_digits c hc)).2.1]
    rw [splitOnSep_no_sep fun c hc =>
      (digit_ne (padZeros_digits (fun e he => natToChars_digits e he) c hc)).2.1]
  rw [parseRatCore, hsplit]
  dsimp only
  rw [if_pos]
  · rw [digitsVal_natToChars]
    rw [show digitsVal (padZeros d (natToChars b)) = b by
      unfold padZeros
      rw [digitsVal_replicate_zero_append, digitsVal_natToChars]]
    rw [padZeros_length (natToChars_length_le hd hb)]
  · simp only [Bool.and_eq_true, Bool.or_eq_true, decide_eq_true_eq, List.all_eq_true]
    refine ⟨⟨Or.inl (by simpa using natToChars_ne_nil), fun c hc => natToChars_digits c hc⟩,
      fun c hc => padZeros_digits (fun e he => natToChars_digits e he) c hc⟩

theorem natDivMod_cast (m k : ℕ) :
    ((m / 10 ^ k : ℕ) : ℚ) + ((m % 10 ^ k : ℕ) : ℚ) / 10 ^ k = (m : ℚ) / 10 ^ k := by
  have h : 10 ^ k * (m / 10 ^ k) + m % 10 ^ k = m := Nat.div_add_mod m (10 ^ k)
  have h' : (10 : ℚ) ^ k * ((m / 10 ^ k : ℕ) : ℚ) + ((m % 10 ^ k : ℕ) : ℚ) = (m : ℚ) := by
    exact_mod_cast h
  have hpow : ((10 : ℚ) ^ k) ≠ 0 := by positivity
  field_simp
  linarith [h']

theorem formatFixed_parse {q : ℚ} {d : ℕ} (hd : 0 < d) :
    parseRat? (formatFixed q d) = some (roundDec d q) := by
  have hfp : (rhe (q * 10 ^ d)).natAbs % 10 ^ d < 10 ^ d :=
    Nat.mod_lt _ (by positivity)
  have hpow : ((10 : ℚ) ^ d) ≠ 0 := by positivity
  unfold formatFixed roundDec
  dsimp only
  by_cases hq : q < 0
  · rw [if_pos hq]
    have hn : rhe (q * 10 ^ d) ≤ 0 :=
      rhe_nonpos (mul_nonpos_of_nonpos_of_nonneg (le_of_lt hq) (by positivity))
    rw [List.singleton_append, List.cons_append]
    rw [show parseRat? ('-' ::
          (natToChars ((rhe (q * 10 ^ d)).natAbs / 10 ^ d) ++
            '.' :: padZeros d (natToChars ((rhe (q * 10 ^ d)).natAbs % 10 ^ d)))) =
        (parseRatCore
          (natToChars ((rhe (q * 10 ^ d)).natAbs / 10 ^ d) ++
            '.' :: padZeros d (natToChars ((rhe (q * 10 ^ d)).natAbs % 10 ^ d)))).map
          (fun x : ℚ => -x) from rfl]
    rw [parseRatCore_shape hd hfp]
    rw [show Option.map (fun q : ℚ => -q)
        (some (((rhe (q * 10 ^ d)).natAbs / 10 ^ d : ℕ) +
          ((rhe (q * 10 ^ d)).natAbs % 10 ^ d : ℕ) / (10 : ℚ) ^ d)) =
        some (-((((rhe (q * 10 ^ d)).natAbs / 10 ^ d : ℕ) : ℚ) +
          (((rhe (q * 10 ^ d)).natAbs % 10 ^ d : ℕ) : ℚ) / 10 ^ d)) from rfl]
    rw [Option.some_inj, natDivMod_cast]
    have h0 : ((rhe (q * 10 ^ d)).natAbs : ℤ) = -rhe (q * 10 ^ d) :=
      Int.ofNat_natAbs_of_nonpos hn
    have : ((rhe (q * 10 ^ d)).natAbs : ℚ) = -((rhe (q * 10 ^ d) : ℤ) : ℚ) := by
      calc ((rhe (q * 10 ^ d)).natAbs : ℚ)
          = (((rhe (q * 10 ^ d)).natAbs : ℤ) : ℚ) := (Int.cast_natCast _).symm
        _ = ((-rhe (q * 10 ^ d) : ℤ) : ℚ) := by rw [h0]
        _ = -((rhe (q * 10 ^ d) : ℤ) : ℚ) := by push_cast; ring
    rw [this]
    ring
  · rw [if_neg hq]
    have hn : 0 ≤ rhe (q * 10 ^ d) :=
      rhe_nonneg (mul_nonneg (le_of_not_gt hq) (by positivity))
    obtain ⟨c, cs, hcs, hdig⟩ := natToChars_headDigit
      (n := (rhe (q * 10 ^ d)).natAbs / 10 ^ d)
    obtain ⟨-, -, hm, hp, -, -, -⟩ := digit_ne hdig
    rw [List.nil_append, hcs, List.cons_append]
    simp only [parseRat?]
    rw [if_neg hm, if_neg hp, ← List.cons_append, ← hcs, parseRatCore_shape hd hfp]
    rw [Option.some_inj, natDivMod_cast]
    have h0 : ((rhe (q * 10 ^ d)).natAbs : ℤ) = rhe (q * 10 ^ d) :=
      Int.natAbs_of_nonneg hn
    have : ((rhe (q * 10 ^ d)).natAbs : ℚ) = ((rhe (q * 10 ^ d) : ℤ) : ℚ) := by
      calc ((rhe (q * 10 ^ d)).natAbs : ℚ)
          = (((rhe (q * 10 ^ d)).natAbs : ℤ) : ℚ) := (Int.cast_natCast _).symm
        _ = ((rhe (q * 10 ^ d) : ℤ) : ℚ) := by rw [h0]
    rw [this]

theorem factorCount_pow_dvd {p : ℕ} (hp : 1 < p) :
    ∀ fuel n, 0 < n → n ≤ fuel → p ^ factorCount p fuel n ∣ n := by
  intro fuel
  induction fuel with
  | zero => intro n h1 h2; omega
  | succ fuel ih =>
      intro n h1 h2
      rw [factorCount]
      split
      · next hyp =>
          simp only [Bool.and_eq_true, decide_eq_true_eq, ne_eq] at hyp
          obtain ⟨⟨hmod, -⟩, -⟩ := hyp
          have hdvd : p ∣ n := Nat.dvd_of_mod_eq_zero hmod
          have hlt : n / p < n := Nat.div_lt_self h1 hp
          have hpos : 0 < n / p := Nat.div_pos (Nat.le_of_dvd h1 hdvd) (by omega)
          have := ih (n / p) hpos (by omega)
          calc p ^ (factorCount p fuel (n / p) + 1)
              = p * p ^ factorCount p fuel (n / p) := by ring
            _ ∣ p * (n / p) := mul_dvd_mul_left p this
            _ = n := Nat.mul_div_cancel' hdvd
      · simp

theorem decExp?_dvd {den e : ℕ} (h : decExp? den = some e) : den ∣ 10 ^ e := by
  unfold decExp? at h
  split at h
  · next hcond =>
      simp only [Option.some.injEq] at h
      simp only [Bool.and_eq_true, decide_eq_true_eq, ne_eq] at hcond
      obtain ⟨hquot, hden⟩ := hcond
      have hden0 : 0 < den := Nat.pos_of_ne_zero hden
      have h2 : 2 ^ factorCount 2 den den ∣ den :=
        factorCount_pow_dvd (by norm_num) den den hden0 le_rfl
      have h5 : 5 ^ factorCount 5 den den ∣ den :=
        factorCount_pow_dvd (by norm_num) den den hden0 le_rfl
      have hco : Nat.Coprime (5 ^ factorCount 5 den den) (2 ^ factorCount 2 den den) :=
        Nat.Coprime.pow _ _ (by norm_num)
      have hsplit : den = 2 ^ factorCount 2 den den * (den / 2 ^ factorCount 2 den den) :=
        (Nat.mul_div_cancel' h2).symm
      have h5' : 5 ^ factorCount 5 den den ∣ den / 2 ^ factorCount 2 den den := by
        refine hco.dvd_of_dvd_mul_left ?_
      -- 5^b ∣ 2^a * (den / 2^a) = den
        rw [← hsplit]
        exact h5
      have hq5 : den / 2 ^ factorCount 2 den den = 5 ^ factorCount 5 den den := by
        have := Nat.mul_div_cancel' h5'
        rw [hquot, Nat.mul_one] at this
        exact this.symm
      have hform : den = 2 ^ factorCount 2 den den * 5 ^ factorCount 5 den den := by
        rw [← hq5]; exact hsplit
      subst h
      calc den = 2 ^ factorCount 2 den den * 5 ^ factorCount 5 den den := hform
        _ ∣ 10 ^ max (factorCount 2 den den) (factorCount 5 den den) := by
            rw [show (10 : ℕ) = 2 * 5 from rfl, Nat.mul_pow]
            exact Nat.mul_dvd_mul (pow_dvd_pow 2 (le_max_left _ _))
              (pow_dvd_pow 5 (le_max_right _ _))
  · exact absurd h (by simp)

theorem decimal_mul_pow_int {q : ℚ} {d e : ℕ} (hde : decExp? q.den = some e)
    (hed : e ≤ d) : ∃ z : ℤ, q * 10 ^ d = (z : ℚ) := by
  have hdvd : q.den ∣ 10 ^ d := dvd_trans (decExp?_dvd hde) (pow_dvd_pow 10 hed)
  obtain ⟨k, hk⟩ := hdvd
  refine ⟨q.num * k, ?_⟩
  have hden : ((q.den : ℚ)) ≠ 0 := by
    exact_mod_cast q.den_nz
  have hk' : ((10 : ℚ) ^ d) = (q.den : ℚ) * (k : ℚ) := by
    exact_mod_cast congrArg (Nat.cast : ℕ → ℚ) hk
  have hqd : q * (q.den : ℚ) = (q.num : ℚ) := Rat.mul_den_eq_num q
  calc q * 10 ^ d = q * ((q.den : ℚ) * (k : ℚ)) := by rw [hk']
    _ = q * (q.den : ℚ) * (k : ℚ) := by ring
    _ = (q.num : ℚ) * (k : ℚ) := by rw [hqd]
    _ = ((q.num * k : ℤ) : ℚ) := by push_cast; ring

theorem roundDec_of_decimal {q : ℚ} {d e : ℕ} (hde : decExp? q.den = some e)
    (hed : e ≤ d) : roundDec d q = q := by
  obtain ⟨z, hz⟩ := decimal_mul_pow_int hde hed
  have hpow : ((10 : ℚ) ^ d) ≠ 0 := by positivity
  unfold roundDec
  rw [hz, rhe_intCast, ← hz]
  field_simp

theorem pyFloatRepr_parse {q : ℚ} (h : IsDecimal q) :
    parseRat? (pyFloatRepr q) = some q := by
  unfold pyFloatRepr
  rcases he : decExp? q.den with _ | e
  · unfold IsDecimal at h
    rw [he] at h
    simp at h
  · rw [formatFixed_parse (by positivity),
      roundDec_of_decimal he (le_max_right 1 e)]

theorem formatFixed_chars {q : ℚ} {d : ℕ} :
    ∀ c ∈ formatFixed q d, c.isDigit = true ∨ c = '-' ∨ c = '.' := by
  intro c hc
  unfold formatFixed at hc
  dsimp only at hc
  rcases List.mem_append.mp hc with h | h
  · rcases List.mem_append.mp h with h1 | h1
    · right; left
      split at h1 <;> simp_all
    · exact Or.inl (natToChars_digits c h1)
  · rcases List.mem_cons.mp h with h1 | h1
    · exact Or.inr (Or.inr h1)
    · exact Or.inl (padZeros_digits (fun e he => natToChars_digits e he) c h1)

theorem intToChars_chars {i : ℤ} :
    ∀ c ∈ intToChars i, c.isDigit = true ∨ c = '-' := by
  intro c hc
  unfold intToChars at hc
  split at hc
  · rcases List.mem_cons.mp hc with h | h
    · exact Or.inr h
    · exact Or.inl (natToChars_digits c h)
  · exact Or.inl (natToChars_digits c hc)

theorem pyFloatRepr_chars {q : ℚ} :
    ∀ c ∈ pyFloatRepr q, c.isDigit = true ∨ c = '-' ∨ c = '.' := by
  intro c hc
  unfold pyFloatRepr at hc
  split at hc <;> exact formatFixed_chars c hc

theorem qgc_field_no_tab {wp : Waypoint} :
    ∀ f ∈ [intToChars wp.seq, intToChars wp.current, natToChars wp.frame.val,
        natToChars wp.command.val, pyFloatRepr wp.param1, pyFloatRepr wp.param2,
        pyFloatRepr wp.param3, pyFloatRepr wp.param4, formatFixed wp.lat 6,
        formatFixed wp.lon 6, formatFixed wp.alt 2, intToChars wp.autocontinue],
      ∀ c ∈ f, c ≠ '\t' := by
  have hdig : ∀ c : Char, c.isDigit = true → c ≠ '\t' := fun c h => (digit_ne h).1
  have hfix : ∀ (q : ℚ) (d : ℕ), ∀ c ∈ formatFixed q d, c ≠ '\t' := by
    intro q d c hc
    rcases formatFixed_chars c hc with h | h | h
    · exact hdig c h
    · subst h; decide
    · subst h; decide
  have hint : ∀ (i : ℤ), ∀ c ∈ intToChars i, c ≠ '\t' := by
    intro i c hc
    rcases intToChars_chars c hc with h | h
    · exact hdig c h
    · subst h; decide
  have hflt : ∀ (q : ℚ), ∀ c ∈ pyFloatRepr q, c ≠ '\t' := by
    intro q c hc
    rcases pyFloatRepr_chars c hc with h | h | h
    · exact hdig c h
    · subst h; decide
    · subst h; decide
  intro f hf
  simp only [List.mem_cons, List.not_mem_nil, or_false] at hf
  rcases hf with h|h|h|h|h|h|h|h|h|h|h|h <;> subst h <;>
    first
      | exact hint _
      | exact hflt _
      | exact hfix _ _
      | exact fun c hc => hdig c (natToChars_digits c hc)

theorem splitOnSep_joinSep {sep : Char} :
    ∀ fields : List Str, fields ≠ [] → (∀ f ∈ fields, ∀ c ∈ f, c ≠ sep) →
      splitOnSep sep (joinSep sep fields) = fields := by
  intro fields
  induction fields with
  | nil => intro h; exact absurd rfl h
  | cons f rest ih =>
      intro _ hsep
      cases rest with
      | nil =>
          exact splitOnSep_no_sep fun c hc => hsep f (by simp) c hc
      | cons g r =>
          rw [joinSep, splitOnSep_append fun c hc => hsep f (by simp) c hc,
            ih (by simp) fun e he c hc => hsep e (List.mem_cons_of_mem f he) c hc]

theorem takeWhile_ne_append {u v : Str} {x : Char} (h : ∀ c ∈ u, c ≠ x) :
    (u ++ x :: v).takeWhile (· ≠ x) = u := by
  induction u with
  | nil => simp [List.takeWhile]
  | cons c t ih =>
      rw [List.cons_append, List.takeWhile_cons]
      rw [if_pos (by simpa using h c (by simp)),
        ih fun e he => h e (List.mem_cons_of_mem c he)]

theorem fracDigits_formatFixed {q : ℚ} {d : ℕ} (hd : 0 < d) :
    fracDigits (formatFixed q d) = d := by
  have hfp : (rhe (q * 10 ^ d)).natAbs % 10 ^ d < 10 ^ d := Nat.mod_lt _ (by positivity)
  unfold formatFixed fracDigits
  dsimp only
  rw [List.reverse_append, List.reverse_cons, List.append_assoc, List.singleton_append]
  rw [takeWhile_ne_append fun c hc =>
    (digit_ne (padZeros_digits (fun e he => natToChars_digits e he) c
      (List.mem_reverse.mp hc))).2.1]
  rw [List.length_reverse]
  exact padZeros_length (natToChars_length_le hd hfp)

/-- C1, counterexample: `Waypoint.to_qgc_line` does not emit the line the
claim specifies — lat/lon are printed to 6 (not 8) fractional digits and
the zero params print as `0.0` (Python float formatting), not `0`. -/
theorem claim_C1_counterexample :
    wpS6.to_qgc_line ≠
      "3\t0\t3\t16\t0\t0\t0\t0\t23.70000000\t120.40000000\t50.00\t1".data := by
  decide

/-- C1 (amended): every waypoint emits a single tab-separated line whose
twelve fields are, in order, seq, current, frame, command, the four
params in Python float formatting, latitude and longitude to exactly six
fractional digits, altitude to exactly two, and autocontinue; in
particular the S6 waypoint emits exactly
`3\t0\t3\t16\t0.0\t0.0\t0.0\t0.0\t23.700000\t120.400000\t50.00\t1`. -/
theorem claim_C1_amended :
    (∀ wp : Waypoint,
      splitOnSep '\t' wp.to_qgc_line =
        [intToChars wp.seq, intToChars wp.current, natToChars wp.frame.val,
         natToChars wp.command.val, pyFloatRepr wp.param1, pyFloatRepr wp.param2,
         pyFloatRepr wp.param3, pyFloatRepr wp.param4, formatFixed wp.lat 6,
         formatFixed wp.lon 6, formatFixed wp.alt 2, intToChars wp.autocontinue] ∧
      fracDigits (formatFixed wp.lat 6) = 6 ∧
      fracDigits (formatFixed wp.lon 6) = 6 ∧
      fracDigits (formatFixed wp.alt 2) = 2) ∧
    wpS6.to_qgc_line =
      "3\t0\t3\t16\t0.0\t0.0\t0.0\t0.0\t23.700000\t120.400000\t50.00\t1".data := by
  constructor
  · intro wp
    refine ⟨?_, fracDigits_formatFixed (by norm_num),
      fracDigits_formatFixed (by norm_num), fracDigits_formatFixed (by norm_num)⟩
    exact splitOnSep_joinSep _ (by simp) qgc_field_no_tab
  · decide

theorem strip_eq_self {l : Str}
    (h1 : ∀ c, l.head? = some c → isSpaceChar c = false)
    (h2 : ∀ c, l.getLast? = some c → isSpaceChar c = false) :
    strip l = l := by
  cases l with
  | nil => rfl
  | cons c t =>
      unfold strip
      rw [List.dropWhile_cons, if_neg (by simp [h1 c rfl])]
      rcases hr : (c :: t).reverse with _ | ⟨d, r⟩
      · exact absurd hr (by simp)
      · have hd : (c :: t).getLast? = some d := by
          rw [← List.head?_reverse, hr]
          rfl
        rw [List.dropWhile_cons, if_neg (by simp [h2 d hd]), ← hr,
          List.reverse_reverse]

theorem intToChars_ne_nil {i : ℤ} : intToChars i ≠ [] := by
  unfold intToChars
  split
  · simp
  · exact natToChars_ne_nil

theorem formatFixed_ne_nil {q : ℚ} {d : ℕ} : formatFixed q d ≠ [] := by
  unfold formatFixed
  dsimp only
  simp

theorem pyFloatRepr_ne_nil {q : ℚ} : pyFloatRepr q ≠ [] := by
  unfold pyFloatRepr
  split <;> exact formatFixed_ne_nil

theorem joinSep_ne_nil {sep : Char} {f : Str} {rest : List Str} (hf : f ≠ []) :
    joinSep sep (f :: rest) ≠ [] := by
  cases rest with
  | nil => simpa [joinSep] using hf
  | cons g r => rw [joinSep]; simp

theorem joinSep_head? {sep : Char} {f : Str} {rest : List Str} (hf : f ≠ []) :
    (joinSep sep (f :: rest)).head? = f.head? := by
  cases rest with
  | nil => rfl
  | cons g r =>
      rw [joinSep, List.head?_append]
      rcases f with _ | ⟨c, t⟩
      · exact absurd rfl hf
      · rfl

theorem joinSep_getLast? {sep : Char} :
    ∀ {fields : List Str} {z : Str}, fields.getLast? = some z →
      (∀ f ∈ fields, f ≠ []) →
      (joinSep sep fields).getLast? = z.getLast? := by
  intro fields
  induction fields with
  | nil => intro z h; simp at h
  | cons f rest ih =>
      intro z h hne
      cases rest with
      | nil =>
          simp only [List.getLast?_singleton, Option.some.injEq] at h
          subst h
          rfl
      | cons g r =>
          rw [List.getLast?_cons_cons] at h
          have hX : (joinSep sep (g :: r)).getLast? = z.getLast? :=
            ih h fun e he => hne e (List.mem_cons_of_mem f he)
          have hlf : z ≠ [] := by
            refine hne z (List.mem_cons_of_mem f ?_)
            rcases hgl : (g :: r).getLast? with _ | ⟨x⟩
            · simp at hgl
            · rw [hgl] at h
              cases h
              have h1 : (g :: r) ≠ [] := by simp
              have := List.getLast?_eq_getLast (g :: r) h1
              rw [this] at hgl
              cases hgl
              exact List.getLast_mem h1
          rcases hw : z.getLast? with _ | ⟨w⟩
          · exact absurd (List.getLast?_eq_none_iff.mp hw) hlf
          · rw [hw] at hX
            rw [joinSep, List.getLast?_append, List.getLast?_cons, hX]
            rfl

theorem natToChars_last {n : ℕ} :
    ∃ c, (natToChars n).getLast? = some c ∧ c.isDigit = true := by
  have h := List.getLast?_eq_getLast (natToChars n) natToChars_ne_nil
  exact ⟨_, h, natToChars_digits _ (List.getLast_mem natToChars_ne_nil)⟩

theorem intToChars_last {i : ℤ} :
    ∃ c, (intToChars i).getLast? = some c ∧ c.isDigit = true := by
  unfold intToChars
  split
  · obtain ⟨c, hc, hdig⟩ := natToChars_last (n := i.natAbs)
    refine ⟨c, ?_, hdig⟩
    rw [List.getLast?_cons, hc]
    rfl
  · exact natToChars_last

theorem intToChars_head {i : ℤ} :
    ∃ c, (intToChars i).head? = some c ∧ (c.isDigit = true ∨ c = '-') := by
  unfold intToChars
  split
  · exact ⟨'-', rfl, Or.inr rfl⟩
  · obtain ⟨c, cs, hcs, hdig⟩ := natToChars_headDigit (n := i.toNat)
    exact ⟨c, by rw [hcs]; rfl, Or.inl hdig⟩

/-- The twelve fields of a QGC line, as a list. -/
theorem to_qgc_line_fields (wp : Waypoint) :
    wp.to_qgc_line = joinSep '\t'
      [intToChars wp.seq, intToChars wp.current, natToChars wp.frame.val,
       natToChars wp.command.val, pyFloatRepr wp.param1, pyFloatRepr wp.param2,
       pyFloatRepr wp.param3, pyFloatRepr wp.param4, formatFixed wp.lat 6,
       formatFixed wp.lon 6, formatFixed wp.alt 2, intToChars wp.autocontinue] := rfl

theorem to_qgc_line_head {wp : Waypoint} :
    ∃ c, wp.to_qgc_line.head? = some c ∧ (c.isDigit = true ∨ c = '-') := by
  obtain ⟨c, hc, hd⟩ := intToChars_head (i := wp.seq)
  refine ⟨c, ?_, hd⟩
  rw [to_qgc_line_fields, joinSep_head? intToChars_ne_nil, hc]

theorem to_qgc_line_last {wp : Waypoint} :
    ∃ c, wp.to_qgc_line.getLast? = some c ∧ c.isDigit = true := by
  obtain ⟨c, hc, hd⟩ := intToChars_last (i := wp.autocontinue)
  refine ⟨c, ?_, hd⟩
  rw [to_qgc_line_fields, joinSep_getLast? (z := intToChars wp.autocontinue) (by rfl), hc]
  intro f hf
  simp only [List.mem_cons, List.not_mem_nil, or_false] at hf
  rcases hf with h|h|h|h|h|h|h|h|h|h|h|h <;> subst h <;>
    first
      | exact intToChars_ne_nil
      | exact natToChars_ne_nil
      | exact pyFloatRepr_ne_nil
      | exact formatFixed_ne_nil

theorem natToChars_parseInt? {n : ℕ} : parseInt? (natToChars n) = some (n : ℤ) := by
  obtain ⟨c, cs, hcs, hdig⟩ := natToChars_headDigit (n := n)
  obtain ⟨-, -, hm, hp, -, -, -⟩ := digit_ne hdig
  rw [hcs]
  simp only [parseInt?]
  rw [if_neg hm, if_neg hp, ← hcs, parseNat?_natToChars]
  rfl

theorem frame_ofVal_val (f : CoordinateFrame) :
    CoordinateFrame.ofVal? (f.val : ℤ) = some f := by
  cases f <;> rfl

theorem command_ofVal_val (c : MAVCommand) :
    MAVCommand.ofVal? (c.val : ℤ) = some c := by
  cases c <;> rfl

theorem strip_to_qgc_line (wp : Waypoint) : strip wp.to_qgc_line = wp.to_qgc_line := by
  obtain ⟨c, hc, hd⟩ := @to_qgc_line_head wp
  obtain ⟨e, he, hed⟩ := @to_qgc_line_last wp
  refine strip_eq_self ?_ ?_
  · intro x hx
    rw [hc] at hx
    cases hx
    rcases hd with h | h
    · exact (digit_ne h).2.2.2.2.2.2
    · subst h; decide
  · intro x hx
    rw [he] at hx
    cases hx
    exact (digit_ne hed).2.2.2.2.2.2

/-- One emit/parse cycle on a single waypoint line: every field survives,
with lat/lon/alt rounded to the printed precision. -/
theorem from_to_qgc_line (wp : Waypoint) (hp1 : IsDecimal wp.param1)
    (hp2 : IsDecimal wp.param2) (hp3 : IsDecimal wp.param3)
    (hp4 : IsDecimal wp.param4) :
    Waypoint.from_qgc_line wp.to_qgc_line = some (qgcRound wp) := by
  unfold Waypoint.from_qgc_line
  rw [strip_to_qgc_line, to_qgc_line_fields, splitOnSep_joinSep _ (by simp) qgc_field_no_tab]
  dsimp only
  rw [parseInt?_intToChars, parseInt?_intToChars, parseInt?_intToChars,
    natToChars_parseInt?,
    natToChars_parseInt?, pyFloatRepr_parse hp1, pyFloatRepr_parse hp2,
    pyFloatRepr_parse hp3, pyFloatRepr_parse hp4,
    formatFixed_parse (by norm_num : (0:ℕ) < 6),
    formatFixed_parse (by norm_num : (0:ℕ) < 6),
    formatFixed_parse (by norm_num : (0:ℕ) < 2)]
  simp only [Option.some_bind, frame_ofVal_val, command_ofVal_val]
  rfl

theorem updateSeq_length (l : List Waypoint) :
    (updateSequenceNumbers l).length = l.length := by
  simp [updateSequenceNumbers, List.enum_length]

theorem updateSeq_get (l : List Waypoint) (i : ℕ)
    (h1 : i < (updateSequenceNumbers l).length) (h2 : i < l.length) :
    (updateSequenceNumbers l).get ⟨i, h1⟩ = { l.get ⟨i, h2⟩ with seq := (i : ℤ) } := by
  unfold updateSequenceNumbers
  simp only [List.get_eq_getElem, List.getElem_map, List.getElem_enum]

theorem updateSeq_updateSeq (l : List Waypoint) :
    updateSequenceNumbers (updateSequenceNumbers l) = updateSequenceNumbers l := by
  refine List.ext_get (by rw [updateSeq_length]) ?_
  intro i h1 h2
  have h3 : i < l.length := by rw [updateSeq_length] at h2; exact h2
  rw [updateSeq_get _ i h1 h2, updateSeq_get _ i h2 h3]

theorem updateSeq_append_left (a b : List Waypoint) :
    updateSequenceNumbers (updateSequenceNumbers a ++ b) =
      updateSequenceNumbers (a ++ b) := by
  refine List.ext_get (by simp [updateSeq_length]) ?_
  intro i h1 h2
  have hl1 : i < (updateSequenceNumbers a ++ b).length := by
    simp only [updateSeq_length] at h1
    exact h1
  have hl2 : i < (a ++ b).length := by
    rw [updateSeq_length] at h2
    exact h2
  rw [updateSeq_get _ i h1 hl1, updateSeq_get _ i h2 hl2]
  by_cases hia : i < a.length
  · have ha1 : i < (updateSequenceNumbers a).length := by rwa [updateSeq_length]
    have e1 : (updateSequenceNumbers a ++ b).get ⟨i, hl1⟩ =
        (updateSequenceNumbers a).get ⟨i, ha1⟩ := by
      simp only [List.get_eq_getElem]
      exact List.getElem_append_left ha1
    have e2 : (a ++ b).get ⟨i, hl2⟩ = a.get ⟨i, hia⟩ := by
      simp only [List.get_eq_getElem]
      exact List.getElem_append_left hia
    rw [e1, e2, updateSeq_get _ i ha1 hia]
  · have hlen : i - a.length < b.length := by
      simp only [List.length_append] at hl2
      omega
    have e1 : (updateSequenceNumbers a ++ b).get ⟨i, hl1⟩ =
        b.get ⟨i - a.length, hlen⟩ := by
      simp only [List.get_eq_getElem]
      rw [List.getElem_append_right (by rw [updateSeq_length]; omega)]
      simp [updateSeq_length]
    have e2 : (a ++ b).get ⟨i, hl2⟩ = b.get ⟨i - a.length, hlen⟩ := by
      simp only [List.get_eq_getElem]
      rw [List.getElem_append_right (by omega)]
    rw [e1, e2]

theorem fromQgcStep_header (s : WaypointSequence) : fromQgcStep s qgcHeader = s := rfl

theorem startsWith_false {p : Char} {ps : List Char} {c : Char} {t : Str}
    (h : p ≠ c) : startsWith (p :: ps) (c :: t) = false := by
  rw [startsWith]
  simp [h]

theorem fromQgcStep_line (s : WaypointSequence) (wp : Waypoint)
    (hp1 : IsDecimal wp.param1) (hp2 : IsDecimal wp.param2)
    (hp3 : IsDecimal wp.param3) (hp4 : IsDecimal wp.param4) :
    fromQgcStep s wp.to_qgc_line = s.add (qgcRound wp) := by
  obtain ⟨c, hc, hd⟩ := @to_qgc_line_head wp
  rcases hl : wp.to_qgc_line with _ | ⟨x, t⟩
  · rw [hl] at hc
    cases hc
  · rw [hl] at hc
    have hx : x = c := by
      simpa using hc
    subst hx
    have hhash : ('#' : Char) ≠ x := by
      rcases hd with h | h
      · exact fun e => (digit_ne h).2.2.2.2.1 e.symm
      · subst h; decide
    have hq : ('Q' : Char) ≠ x := by
      rcases hd with h | h
      · exact fun e => (digit_ne h).2.2.2.2.2.1 e.symm
      · subst h; decide
    unfold fromQgcStep
    rw [← hl, strip_to_qgc_line, hl]
    rw [if_neg (by
      simp only [Bool.or_eq_true, decide_eq_true_eq, startsWith_false hhash,
        startsWith_false hq, or_false]
      simp)]
    rw [← hl, from_to_qgc_line wp hp1 hp2 hp3 hp4]

theorem foldl_qgc_lines :
    ∀ (wps : List Waypoint) (u : List Waypoint),
      updateSequenceNumbers u = u →
      (∀ wp ∈ wps, IsDecimal wp.param1 ∧ IsDecimal wp.param2 ∧
        IsDecimal wp.param3 ∧ IsDecimal wp.param4) →
      ((wps.map Waypoint.to_qgc_line).foldl fromQgcStep ⟨u⟩).waypoints =
        updateSequenceNumbers (u ++ wps.map qgcRound) := by
  intro wps
  induction wps with
  | nil =>
      intro u hu _
      simpa using hu.symm
  | cons wp rest ih =>
      intro u hu hp
      obtain ⟨hp1, hp2, hp3, hp4⟩ := hp wp (by simp)
      rw [List.map_cons, List.foldl_cons, fromQgcStep_line _ wp hp1 hp2 hp3 hp4]
      show ((rest.map Waypoint.to_qgc_line).foldl fromQgcStep
        ⟨updateSequenceNumbers (u ++ [qgcRound wp])⟩).waypoints = _
      rw [ih _ (updateSeq_updateSeq _)
        (fun w hw => hp w (List.mem_cons_of_mem wp hw)),
        updateSeq_append_left, List.append_assoc, List.singleton_append,
        List.map_cons]

/-- C2: emitting a waypoint sequence as QGC WPL 110 text and parsing it
back yields a sequence of the same length in which every waypoint agrees
with the original in seq, command, frame, params, current and
autocontinue exactly, and in lat/lon/alt up to the printed precision
(6/6/2 fractional digits).  The params are assumed to be finite decimals,
as every IEEE double is. -/
theorem claim_C2 (l : List Waypoint)
    (hp : ∀ wp ∈ l, IsDecimal wp.param1 ∧ IsDecimal wp.param2 ∧
      IsDecimal wp.param3 ∧ IsDecimal wp.param4) :
    (WaypointSequence.from_qgc_format
        (WaypointSequence.mkSeq l).to_qgc_format).waypoints.length =
      (WaypointSequence.mkSeq l).waypoints.length ∧
    ∀ i (h1 : i < (WaypointSequence.from_qgc_format
        (WaypointSequence.mkSeq l).to_qgc_format).waypoints.length)
      (h2 : i < (WaypointSequence.mkSeq l).waypoints.length),
      ((WaypointSequence.from_qgc_format
          (WaypointSequence.mkSeq l).to_qgc_format).waypoints.get ⟨i, h1⟩ =
        qgcRound ((WaypointSequence.mkSeq l).waypoints.get ⟨i, h2⟩)) := by
  have hmem : ∀ wp ∈ (WaypointSequence.mkSeq l).waypoints,
      IsDecimal wp.param1 ∧ IsDecimal wp.param2 ∧
        IsDecimal wp.param3 ∧ IsDecimal wp.param4 := by
    intro wp hw
    obtain ⟨⟨i, hi⟩, hget⟩ := List.mem_iff_get.mp hw
    have hi2 : i < l.length := by
      have h := hi
      unfold WaypointSequence.mkSeq at h
      rwa [updateSeq_length] at h
    have he : (WaypointSequence.mkSeq l).waypoints.get ⟨i, hi⟩ =
        { l.get ⟨i, hi2⟩ with seq := (i : ℤ) } := updateSeq_get l i hi hi2
    rw [← hget, he]
    exact hp (l.get ⟨i, hi2⟩) (List.get_mem l i hi2)
  have hrun : (WaypointSequence.from_qgc_format
      (WaypointSequence.mkSeq l).to_qgc_format).waypoints =
      updateSequenceNumbers ((WaypointSequence.mkSeq l).waypoints.map qgcRound) := by
    unfold WaypointSequence.from_qgc_format WaypointSequence.to_qgc_format
    rw [List.foldl_cons, fromQgcStep_header,
      foldl_qgc_lines _ [] rfl hmem, List.nil_append]
  constructor
  · rw [hrun, updateSeq_length, List.length_map]
  · intro i h1 h2
    have h3 : i < (updateSequenceNumbers
        ((WaypointSequence.mkSeq l).waypoints.map qgcRound)).length := by
      rw [← hrun]; exact h1
    have h4 : i < ((WaypointSequence.mkSeq l).waypoints.map qgcRound).length := by
      rw [updateSeq_length] at h3; exact h3
    have h5 : i < l.length := by
      have := h2
      unfold WaypointSequence.mkSeq at this
      rwa [updateSeq_length] at this
    have hget : (WaypointSequence.from_qgc_format
        (WaypointSequence.mkSeq l).to_qgc_format).waypoints.get ⟨i, h1⟩ =
        { qgcRound ((WaypointSequence.mkSeq l).waypoints.get ⟨i, h2⟩) with
            seq := (i : ℤ) } := by
      have e0 : (WaypointSequence.from_qgc_format
          (WaypointSequence.mkSeq l).to_qgc_format).waypoints.get ⟨i, h1⟩ =
          (updateSequenceNumbers
            ((WaypointSequence.mkSeq l).waypoints.map qgcRound)).get ⟨i, h3⟩ := by
        simp only [List.get_eq_getElem]
        exact List.getElem_of_eq hrun h1
      rw [e0, updateSeq_get _ i h3 h4]
      simp only [List.get_eq_getElem, List.getElem_map]
    rw [hget]
    have hseq : (qgcRound ((WaypointSequence.mkSeq l).waypoints.get ⟨i, h2⟩)).seq =
        (i : ℤ) := by
      show ((WaypointSequence.mkSeq l).waypoints.get ⟨i, h2⟩).seq = (i : ℤ)
      unfold WaypointSequence.mkSeq
      rw [updateSeq_get _ i h2 h5]
    rw [← hseq]

/-- Witness for C2 at the concrete one-waypoint sequence `[wpS6]`. -/
theorem claim_C2_witness :
    (∀ wp ∈ [wpS6], IsDecimal wp.param1 ∧ IsDecimal wp.param2 ∧
      IsDecimal wp.param3 ∧ IsDecimal wp.param4) ∧
    ((WaypointSequence.from_qgc_format
        (WaypointSequence.mkSeq [wpS6]).to_qgc_format).waypoints.length =
      (WaypointSequence.mkSeq [wpS6]).waypoints.length ∧
    ∀ i (h1 : i < (WaypointSequence.from_qgc_format
        (WaypointSequence.mkSeq [wpS6]).to_qgc_format).waypoints.length)
      (h2 : i < (WaypointSequence.mkSeq [wpS6]).waypoints.length),
      ((WaypointSequence.from_qgc_format
          (WaypointSequence.mkSeq [wpS6]).to_qgc_format).waypoints.get ⟨i, h1⟩ =
        qgcRound ((WaypointSequence.mkSeq [wpS6]).waypoints.get ⟨i, h2⟩))) :=
  ⟨by decide, claim_C2 [wpS6] (by decide)⟩

/-- **C3.** On the 100 m square with scan angle 0 and spacing 20, the
scan-line sweep (which starts at `y_min + spacing/2` and steps by
`spacing` while `y < y_max`, using the half-open crossing test) yields
exactly the 5 sweep lines at `y ∈ {10, 30, 50, 70, 90}` — each running
from `x = 0` to `x = 100` — and the zigzag connection yields exactly 10
waypoints with alternating x.  The hypotheses pin the cosine/sine model
arguments at angle 0 to their exact values `cos 0 = 1`, `sin 0 = 0`. -/
theorem claim_C3 (cosF sinF : ℚ → ℚ)
    (hc : cosF (radiansQ 0) = 1) (hs : sinF (radiansQ 0) = 0) :
    generateScanLines cosF sinF
        [⟨0, 0⟩, ⟨0, 100⟩, ⟨100, 100⟩, ⟨100, 0⟩] 20 0 =
      [(⟨0, 10⟩, ⟨100, 10⟩), (⟨0, 30⟩, ⟨100, 30⟩), (⟨0, 50⟩, ⟨100, 50⟩),
       (⟨0, 70⟩, ⟨100, 70⟩), (⟨0, 90⟩, ⟨100, 90⟩)] ∧
    connectPattern .ZIGZAG
        (generateScanLines cosF sinF
          [⟨0, 0⟩, ⟨0, 100⟩, ⟨100, 100⟩, ⟨100, 0⟩] 20 0) =
      [⟨0, 10⟩, ⟨100, 10⟩, ⟨100, 30⟩, ⟨0, 30⟩, ⟨0, 50⟩, ⟨100, 50⟩,
       ⟨100, 70⟩, ⟨0, 70⟩, ⟨0, 90⟩, ⟨100, 90⟩] := by
  have h : generateScanLines cosF sinF
      [⟨0, 0⟩, ⟨0, 100⟩, ⟨100, 100⟩, ⟨100, 0⟩] 20 0 =
      generateScanLinesCore 1 0 [⟨0, 0⟩, ⟨0, 100⟩, ⟨100, 100⟩, ⟨100, 0⟩] 20 := by
    show generateScanLinesCore (cosF (radiansQ 0)) (sinF (radiansQ 0))
        [⟨0, 0⟩, ⟨0, 100⟩, ⟨100, 100⟩, ⟨100, 0⟩] 20 =
      generateScanLinesCore 1 0 [⟨0, 0⟩, ⟨0, 100⟩, ⟨100, 100⟩, ⟨100, 0⟩] 20
    rw [hc, hs]
  rw [h]
  exact ⟨by decide, by decide⟩

/-- Witness for C3 with the constant functions `cosF = 1`, `sinF = 0`. -/
theorem claim_C3_witness :
    ((fun _ : ℚ => (1 : ℚ)) (radiansQ 0) = 1 ∧
      (fun _ : ℚ => (0 : ℚ)) (radiansQ 0) = 0) ∧
    (generateScanLines (fun _ => 1) (fun _ => 0)
        [⟨0, 0⟩, ⟨0, 100⟩, ⟨100, 100⟩, ⟨100, 0⟩] 20 0 =
      [(⟨0, 10⟩, ⟨100, 10⟩), (⟨0, 30⟩, ⟨100, 30⟩), (⟨0, 50⟩, ⟨100, 50⟩),
       (⟨0, 70⟩, ⟨100, 70⟩), (⟨0, 90⟩, ⟨100, 90⟩)] ∧
    connectPattern .ZIGZAG
        (generateScanLines (fun _ => 1) (fun _ => 0)
          [⟨0, 0⟩, ⟨0, 100⟩, ⟨100, 100⟩, ⟨100, 0⟩] 20 0) =
      [⟨0, 10⟩, ⟨100, 10⟩, ⟨100, 30⟩, ⟨0, 30⟩, ⟨0, 50⟩, ⟨100, 50⟩,
       ⟨100, 70⟩, ⟨0, 70⟩, ⟨0, 90⟩, ⟨100, 90⟩]) :=
  ⟨⟨rfl, rfl⟩, claim_C3 (fun _ => 1) (fun _ => 0) rfl rfl⟩

/-- The zigzag connection emits two waypoints per segment. -/
theorem zigzagAux_length :
    ∀ (sl : List (Pt × Pt)) (j : ℕ),
      (connectZigzagAux j sl).length = 2 * sl.length := by
  intro sl
  induction sl with
  | nil => intro j; rfl
  | cons s rest ih =>
      intro j
      show ((if j % 2 = 0 then [s.1, s.2] else [s.2, s.1]) ++
          connectZigzagAux (j + 1) rest).length = _
      rw [List.length_append, ih]
      by_cases hj : j % 2 = 0 <;> simp [hj, List.length_cons] <;> omega

/-- Pointwise description of the zigzag connection started at index `j`:
position `2i` holds the start (resp. end) of segment `i` when `j + i` is
even (resp. odd), and position `2i + 1` the other endpoint. -/
theorem zigzagAux_getElem? :
    ∀ (sl : List (Pt × Pt)) (j i : ℕ), i < sl.length →
      ((connectZigzagAux j sl)[2 * i]? =
        some (if (j + i) % 2 = 0 then (sl.getD i (⟨0, 0⟩, ⟨0, 0⟩)).1
              else (sl.getD i (⟨0, 0⟩, ⟨0, 0⟩)).2)) ∧
      ((connectZigzagAux j sl)[2 * i + 1]? =
        some (if (j + i) % 2 = 0 then (sl.getD i (⟨0, 0⟩, ⟨0, 0⟩)).2
              else (sl.getD i (⟨0, 0⟩, ⟨0, 0⟩)).1)) := by
  intro sl
  induction sl with
  | nil => intro j i h; exact absurd h (by simp)
  | cons s rest ih =>
      intro j i h
      have e : connectZigzagAux j (s :: rest) =
          (if j % 2 = 0 then s.1 else s.2) :: (if j % 2 = 0 then s.2 else s.1) ::
            connectZigzagAux (j + 1) rest := by
        show (if j % 2 = 0 then [s.1, s.2] else [s.2, s.1]) ++
            connectZigzagAux (j + 1) rest = _
        by_cases hj : j % 2 = 0
        · rw [if_pos hj, if_pos hj, if_pos hj]; rfl
        · rw [if_neg hj, if_neg hj, if_neg hj]; rfl
      rw [e]
      cases i with
      | zero =>
          constructor <;> simp [List.getD_cons_zero]
      | succ k =>
          have hk : k < rest.length := by
            simp only [List.length_cons] at h; omega
          obtain ⟨ih1, ih2⟩ := ih (j + 1) k hk
          have hpar : (j + 1 + k) % 2 = (j + (k + 1)) % 2 := by omega
          constructor
          · rw [show 2 * (k + 1) = 2 * k + 1 + 1 from by ring,
              List.getElem?_cons_succ, List.getElem?_cons_succ, ih1,
              List.getD_cons_succ, hpar]
          · rw [show 2 * (k + 1) + 1 = 2 * k + 1 + 1 + 1 from by ring,
              List.getElem?_cons_succ, List.getElem?_cons_succ, ih2,
              List.getD_cons_succ, hpar]

/-- **C4.** For every non-empty list of sweep-line segments each of which
runs forward in the rotated frame (`rotX` of its start below `rotX` of its
end), the zigzag connection has two waypoints per segment and the sign of
`rotX wp[2i+1] − rotX wp[2i]` alternates with `i`: it is positive exactly
when `i` is even (segment emitted start-then-end) and negative exactly
when `i` is odd (segment emitted end-then-start). -/
theorem claim_C4 (cos_t sin_t : ℚ) (sl : List (Pt × Pt)) (hne : sl ≠ [])
    (hdir : ∀ s ∈ sl, rotX cos_t sin_t s.1 < rotX cos_t sin_t s.2) :
    (connectPattern .ZIGZAG sl).length = 2 * sl.length ∧
    ∀ i, i < sl.length →
      ∃ a b : Pt,
        (connectPattern .ZIGZAG sl)[2 * i]? = some a ∧
        (connectPattern .ZIGZAG sl)[2 * i + 1]? = some b ∧
        (0 < rotX cos_t sin_t b - rotX cos_t sin_t a ↔ i % 2 = 0) := by
  have hne' : sl.length ≠ 0 := fun h0 => hne (List.length_eq_zero.mp h0)
  refine ⟨zigzagAux_length sl 0, ?_⟩
  intro i hi
  obtain ⟨h1, h2⟩ := zigzagAux_getElem? sl 0 i hi
  have hzero : (0 + i) % 2 = i % 2 := by omega
  have hcp : connectZigzagAux 0 sl = connectPattern .ZIGZAG sl := rfl
  rw [hzero, hcp] at h1 h2
  have hmem : sl.getD i (⟨0, 0⟩, ⟨0, 0⟩) ∈ sl := by
    rw [List.getD_eq_getElem _ _ hi]
    exact List.getElem_mem _
  have hlt := hdir _ hmem
  by_cases hp : i % 2 = 0
  · refine ⟨(sl.getD i (⟨0, 0⟩, ⟨0, 0⟩)).1, (sl.getD i (⟨0, 0⟩, ⟨0, 0⟩)).2,
      ?_, ?_, ?_⟩
    · rw [h1, if_pos hp]
    · rw [h2, if_pos hp]
    · exact ⟨fun _ => hp, fun _ => by linarith⟩
  · refine ⟨(sl.getD i (⟨0, 0⟩, ⟨0, 0⟩)).2, (sl.getD i (⟨0, 0⟩, ⟨0, 0⟩)).1,
      ?_, ?_, ?_⟩
    · rw [h1, if_neg hp]
    · rw [h2, if_neg hp]
    · exact ⟨fun hcon => absurd hcon (by linarith), fun h0 => absurd h0 hp⟩

/-- Witness for C4 on two unit segments with `cos_t = 1`, `sin_t = 0`. -/
theorem claim_C4_witness :
    (([((⟨0, 0⟩ : Pt), (⟨1, 0⟩ : Pt)), (⟨0, 1⟩, ⟨1, 1⟩)] : List (Pt × Pt)) ≠ [] ∧
      (∀ s ∈ ([((⟨0, 0⟩ : Pt), (⟨1, 0⟩ : Pt)), (⟨0, 1⟩, ⟨1, 1⟩)] : List (Pt × Pt)),
        rotX 1 0 s.1 < rotX 1 0 s.2)) ∧
    ((connectPattern .ZIGZAG
        [((⟨0, 0⟩ : Pt), (⟨1, 0⟩ : Pt)), (⟨0, 1⟩, ⟨1, 1⟩)]).length =
      2 * ([((⟨0, 0⟩ : Pt), (⟨1, 0⟩ : Pt)), (⟨0, 1⟩, ⟨1, 1⟩)] :
        List (Pt × Pt)).length ∧
    ∀ i, i < ([((⟨0, 0⟩ : Pt), (⟨1, 0⟩ : Pt)), (⟨0, 1⟩, ⟨1, 1⟩)] :
        List (Pt × Pt)).length →
      ∃ a b : Pt,
        (connectPattern .ZIGZAG
          [((⟨0, 0⟩ : Pt), (⟨1, 0⟩ : Pt)), (⟨0, 1⟩, ⟨1, 1⟩)])[2 * i]? =
          some a ∧
        (connectPattern .ZIGZAG
          [((⟨0, 0⟩ : Pt), (⟨1, 0⟩ : Pt)), (⟨0, 1⟩, ⟨1, 1⟩)])[2 * i + 1]? =
          some b ∧
        (0 < rotX 1 0 b - rotX 1 0 a ↔ i % 2 = 0)) :=
  ⟨⟨by decide, by decide⟩,
    claim_C4 1 0 [((⟨0, 0⟩ : Pt), (⟨1, 0⟩ : Pt)), (⟨0, 1⟩, ⟨1, 1⟩)]
      (by decide) (by decide)⟩

/-- **C6.** The claimed comparison-and-reversal can never happen: with
entry `HOME_CLOSEST` and a home position supplied, `_connect_scan_lines`
converts home with `geo_to_local`, which returns a **3-element** vector
(coordinate.py:128), while every connected waypoint is a **2-element**
scan-line point (grid_generator.py:392-395) — so for every non-empty
connected path the subtraction `first_point - home_local`
(grid_generator.py:475) raises a NumPy broadcast `ValueError` before any
distance is compared, and the branch errors instead of returning (first
conjunct).  Concretely, on the 100 m square with unit projection
coefficients, manual 20 m spacing and `HOME_CLOSEST`, the whole
`generate_survey_grid` pipeline returns status `FAILED` with the broadcast
error text in its message (last two conjuncts) — not the claimed
successful, possibly-reversed waypoint list. -/
theorem claim_C6 (sqrtF : ℚ → ℚ) (t : CoordinateTransformer)
    (scan_lines : List (Pt × Pt)) (pattern : ScanPattern) (hm : ℚ × ℚ)
    (hne : scan_lines ≠ [])
    (hwp : connectPattern pattern scan_lines ≠ []) :
    connectScanLines sqrtF t scan_lines pattern .HOME_CLOSEST (some hm) =
      .error (.broadcastError 2 3) ∧
    (generate_survey_grid (fun _ => 1) (fun _ => 0) id (fun _ => 1) (fun _ => 1)
        { use_manual_spacing := true, manual_line_spacing := 20,
          entry_location := .HOME_CLOSEST }
        [(0, 0), (0, 100), (100, 100), (100, 0)] (some (0, 0))
        ([] : List Unit)).status = .FAILED ∧
    (generate_survey_grid (fun _ => 1) (fun _ => 0) id (fun _ => 1) (fun _ => 1)
        { use_manual_spacing := true, manual_line_spacing := 20,
          entry_location := .HOME_CLOSEST }
        [(0, 0), (0, 100), (100, 100), (100, 0)] (some (0, 0))
        ([] : List Unit)).message = surveyFailMsg (.broadcastError 2 3) := by
  refine ⟨?_, by decide, by decide⟩
  obtain ⟨w0, rest, e⟩ := List.exists_cons_of_ne_nil hwp
  unfold connectScanLines
  rw [if_neg hne]
  simp only [e]

/-- Witness for C6: one scan line, identity `sqrtF`, a trivial
transformer and home at the origin. -/
theorem claim_C6_witness :
    (([((⟨0, 0⟩ : Pt), (⟨1, 0⟩ : Pt))] : List (Pt × Pt)) ≠ [] ∧
     connectPattern .ZIGZAG [((⟨0, 0⟩ : Pt), (⟨1, 0⟩ : Pt))] ≠ []) ∧
    (connectScanLines id ⟨0, 0, 0, 1, 1⟩ [((⟨0, 0⟩ : Pt), (⟨1, 0⟩ : Pt))]
        .ZIGZAG .HOME_CLOSEST (some (0, 0)) =
      .error (.broadcastError 2 3) ∧
    (generate_survey_grid (fun _ => 1) (fun _ => 0) id (fun _ => 1) (fun _ => 1)
        { use_manual_spacing := true, manual_line_spacing := 20,
          entry_location := .HOME_CLOSEST }
        [(0, 0), (0, 100), (100, 100), (100, 0)] (some (0, 0))
        ([] : List Unit)).status = .FAILED ∧
    (generate_survey_grid (fun _ => 1) (fun _ => 0) id (fun _ => 1) (fun _ => 1)
        { use_manual_spacing := true, manual_line_spacing := 20,
          entry_location := .HOME_CLOSEST }
        [(0, 0), (0, 100), (100, 100), (100, 0)] (some (0, 0))
        ([] : List Unit)).message = surveyFailMsg (.broadcastError 2 3)) :=
  ⟨⟨by decide, by decide⟩,
    claim_C6 id ⟨0, 0, 0, 1, 1⟩ [((⟨0, 0⟩ : Pt), (⟨1, 0⟩ : Pt))] .ZIGZAG (0, 0)
      (by decide) (by decide)⟩

/-- **C7.** `CameraConfig.get_gsd` does satisfy the spec formula
`altitude · sensor_width / (focal_length · image_width)` (metres/pixel),
for all inputs.  `CameraModel.calculate_gsd`, however, evaluates to **1000
times** the centimetres-per-pixel value the claim asserts (its
`focal_length_mm / 1000.0` divisor converts the focal length to metres
while the sensor width stays in millimetres): for every positive altitude
it returns `1000 · (100 · altitude · sensor_width_mm / (focal_length_mm ·
image_width_px))`, and on the concrete specs (sensor 10 mm, focal 10 mm,
1000 px) at altitude 50 m it returns 5000, not the 5 cm/px the claim's
formula gives. -/
theorem claim_C7 :
    (∀ (c : CameraConfig) (altitude : ℚ),
      c.get_gsd altitude =
        altitude * c.sensor_width / (c.focal_length * (c.image_width : ℚ))) ∧
    (∀ (s : CameraSpecs) (altitude : ℚ), 0 < altitude →
      CameraModel.calculate_gsd s altitude =
        1000 * (100 * (altitude * s.sensor_width_mm /
          (s.focal_length_mm * (s.image_width_px : ℚ))))) ∧
    CameraModel.calculate_gsd ⟨10, 10, 10, 1000, 1000⟩ 50 = 5000 ∧
    CameraModel.calculate_gsd ⟨10, 10, 10, 1000, 1000⟩ 50 ≠
      100 * ((50 : ℚ) * 10 / (10 * 1000)) := by
  refine ⟨?_, ?_, by decide, by decide⟩
  · intro c altitude
    show altitude * c.sensor_width / c.focal_length / (c.image_width : ℚ) = _
    exact div_div _ _ _
  · intro s altitude halt
    unfold CameraModel.calculate_gsd
    rw [if_neg (not_le.mpr halt)]
    simp only [div_eq_mul_inv, mul_inv, inv_inv]
    ring

/-- Witness for C7's quantified conjunct at the concrete camera specs. -/
theorem claim_C7_witness :
    (0 : ℚ) < 50 ∧
    CameraModel.calculate_gsd ⟨10, 10, 10, 1000, 1000⟩ 50 =
      1000 * (100 * ((50 : ℚ) * 10 /
        (10 * (((1000 : ℤ) : ℚ))))) :=
  ⟨by decide, claim_C7.2.1 ⟨10, 10, 10, 1000, 1000⟩ 50 (by decide)⟩

/-- On nonnegative rationals Python truncation agrees with the floor. -/
theorem pyTrunc_eq_floor {q : ℚ} (h : 0 ≤ q) : pyTrunc q = ⌊q⌋ := by
  unfold pyTrunc
  rw [Int.tdiv_eq_ediv (Rat.num_nonneg.mpr h) (Int.natCast_nonneg _), Rat.floor_def]

/-- The prediction loop appends one pose per step. -/
theorem predictAux_length (cosF sinF : ℚ → ℚ) (v w dt z : ℚ) :
    ∀ (n : ℕ) (x y theta : ℚ),
      (predictAux cosF sinF v w dt z x y theta n).length = n := by
  intro n
  induction n with
  | zero => intro x y theta; rfl
  | succ k ih => intro x y theta; simp [predictAux, ih]

/-- Every pose the prediction loop appends carries the fixed `z`. -/
theorem predictAux_z (cosF sinF : ℚ → ℚ) (v w dt z : ℚ) :
    ∀ (n : ℕ) (x y theta : ℚ),
      ∀ p ∈ predictAux cosF sinF v w dt z x y theta n, p.2.2 = z := by
  intro n
  induction n with
  | zero => intro x y theta p hp; simp [predictAux] at hp
  | succ k ih =>
      intro x y theta p hp
      simp only [predictAux, List.mem_cons] at hp
      rcases hp with h | h
      · rw [h]
      · exact ih _ _ _ p h

/-- **C10.** For a positive `dt` and nonnegative `horizon`,
`predict_trajectory` returns exactly `⌊horizon / dt⌋` positions (the
source's `int(horizon / dt)` loop count), every returned position keeps
the z coordinate the vehicle state had at the time of the call, and the
stored model (constraints and state) is unchanged by the call. -/
theorem claim_C10 (cosF sinF : ℚ → ℚ) (m : MultirotorModel)
    (v w dt horizon : ℚ) (hdt : 0 < dt) (hh : 0 ≤ horizon) :
    (m.predict_trajectory cosF sinF v w dt horizon).length =
      (⌊horizon / dt⌋).toNat ∧
    (∀ p ∈ m.predict_trajectory cosF sinF v w dt horizon,
      p.2.2 = m.state.position.2.2) ∧
    (m.predict_trajectory_call cosF sinF v w dt horizon).2 = m := by
  refine ⟨?_, ?_, rfl⟩
  · show (predictAux cosF sinF v w dt m.state.position.2.2
        m.state.position.1 m.state.position.2.1 m.state.heading
        ((pyTrunc (horizon / dt)).toNat)).length = (⌊horizon / dt⌋).toNat
    rw [predictAux_length, pyTrunc_eq_floor (div_nonneg hh hdt.le)]
  · intro p hp
    exact predictAux_z cosF sinF v w dt _ _ _ _ _ p hp

/-- Witness for C10: default model, `v = 1`, `w = 0`, `dt = 1`,
`horizon = 5/2` (so `⌊horizon / dt⌋ = 2` poses). -/
theorem claim_C10_witness :
    ((0 : ℚ) < 1 ∧ (0 : ℚ) ≤ 5 / 2) ∧
    ((({} : MultirotorModel).predict_trajectory (fun _ => 1) (fun _ => 0)
        1 0 1 (5 / 2)).length = (⌊(5 : ℚ) / 2 / 1⌋).toNat ∧
    (∀ p ∈ ({} : MultirotorModel).predict_trajectory (fun _ => 1) (fun _ => 0)
        1 0 1 (5 / 2),
      p.2.2 = ({} : MultirotorModel).state.position.2.2) ∧
    (({} : MultirotorModel).predict_trajectory_call (fun _ => 1) (fun _ => 0)
        1 0 1 (5 / 2)).2 = ({} : MultirotorModel)) :=
  ⟨⟨by decide, by decide⟩,
    claim_C10 (fun _ => 1) (fun _ => 0) {} 1 0 1 (5 / 2) (by decide) (by decide)⟩

/-- Binding an `Except` into a continuation that always succeeds with a
`SUCCESS` result either propagates the error or yields that result. -/
theorem bind_ok_cases {β : Type} (x : Except PyErr β) (g : β → PlannerResult)
    (hg : ∀ b, (g b).status = .SUCCESS) :
    (∃ e, (x.bind fun b => Except.ok (g b)) = .error e) ∨
    (∃ r, (x.bind fun b => Except.ok (g b)) = .ok r ∧ r.status = .SUCCESS) := by
  cases x with
  | error e => exact Or.inl ⟨e, rfl⟩
  | ok b => exact Or.inr ⟨g b, rfl, hg b⟩

/-- The `try:` body of `generate_survey_grid` either raises (as a modelled
`PyErr`) or returns a `SUCCESS` result. -/
theorem surveyBody_shape {α : Type} (cosF sinF sqrtF mLatF mLonF : ℚ → ℚ)
    (cfg : SurveyConfig) (boundary : List (ℚ × ℚ)) (home : Option (ℚ × ℚ))
    (obstacles : List α) :
    (∃ e, surveyBody cosF sinF sqrtF mLatF mLonF cfg boundary home obstacles =
      .error e) ∨
    (∃ r, surveyBody cosF sinF sqrtF mLatF mLonF cfg boundary home obstacles =
      .ok r ∧ r.status = .SUCCESS) := by
  unfold surveyBody
  by_cases h3 : boundary.length < 3
  · rw [if_pos h3]
    exact Or.inl ⟨_, rfl⟩
  · rw [if_neg h3]
    exact bind_ok_cases _ _ (fun b => rfl)

/-- **C9.** `generate_survey_grid` never propagates an exception: its
`except Exception` wrapper means every call returns a `PlannerResult` that
is either `SUCCESS` or `FAILED` with the error text in the message and no
waypoints; in particular a boundary with fewer than 3 vertices yields the
`FAILED` result carrying the `ValueError` text.  The positivity
hypotheses mark where the embedding needs Python's loops to terminate and
its divisions to be defined: a nonpositive line spacing would make the
scan-line `while` loop diverge rather than raise, and a zero speed would
divide by zero inside the statistics. -/
theorem claim_C9 {α : Type} (cosF sinF sqrtF mLatF mLonF : ℚ → ℚ)
    (cfg : SurveyConfig) (boundary : List (ℚ × ℚ)) (home : Option (ℚ × ℚ))
    (obstacles : List α)
    (_hsp : 0 < cfg.get_line_spacing) (_hv : 0 < cfg.speed) :
    ((generate_survey_grid cosF sinF sqrtF mLatF mLonF cfg boundary home
        obstacles).status = .SUCCESS ∨
     ((generate_survey_grid cosF sinF sqrtF mLatF mLonF cfg boundary home
        obstacles).status = .FAILED ∧
      (generate_survey_grid cosF sinF sqrtF mLatF mLonF cfg boundary home
        obstacles).waypoints = [] ∧
      ∃ e, (generate_survey_grid cosF sinF sqrtF mLatF mLonF cfg boundary home
        obstacles).message = surveyFailMsg e)) ∧
    (boundary.length < 3 →
      generate_survey_grid cosF sinF sqrtF mLatF mLonF cfg boundary home
          obstacles =
        { status := .FAILED,
          message := surveyFailMsg (.valueError "多邊形至少需要3個頂點".data) }) := by
  constructor
  · rcases surveyBody_shape cosF sinF sqrtF mLatF mLonF cfg boundary home
        obstacles with ⟨e, he⟩ | ⟨r, hr, hs⟩
    · right
      have hg : generate_survey_grid cosF sinF sqrtF mLatF mLonF cfg boundary
          home obstacles = { status := .FAILED, message := surveyFailMsg e } := by
        unfold generate_survey_grid
        rw [he]
      rw [hg]
      exact ⟨rfl, rfl, e, rfl⟩
    · left
      have hg : generate_survey_grid cosF sinF sqrtF mLatF mLonF cfg boundary
          home obstacles = r := by
        unfold generate_survey_grid
        rw [hr]
      rw [hg]
      exact hs
  · intro h3
    unfold generate_survey_grid surveyBody
    rw [if_pos h3]

/-- Witness for C9: default configuration, empty boundary (fewer than 3
vertices), no home, no obstacles, identity primitives. -/
theorem claim_C9_witness :
    ((0 : ℚ) < ({} : SurveyConfig).get_line_spacing ∧
      (0 : ℚ) < ({} : SurveyConfig).speed) ∧
    ((generate_survey_grid id id id id id {} [] none ([] : List Unit)).status =
        .SUCCESS ∨
     ((generate_survey_grid id id id id id {} [] none ([] : List Unit)).status =
        .FAILED ∧
      (generate_survey_grid id id id id id {} [] none ([] : List Unit)).waypoints
        = [] ∧
      ∃ e, (generate_survey_grid id id id id id {} [] none
        ([] : List Unit)).message = surveyFailMsg e)) ∧
    (([] : List (ℚ × ℚ)).length < 3 →
      generate_survey_grid id id id id id {} [] none ([] : List Unit) =
        { status := .FAILED,
          message := surveyFailMsg (.valueError "多邊形至少需要3個頂點".data) }) :=
  ⟨⟨by decide, by decide⟩,
    claim_C9 id id id id id {} [] none ([] : List Unit) (by decide) (by decide)⟩

/-- A weighted five-term cost sum whose obstacle term is `+∞` (with a
positive obstacle weight) and whose other four terms are finite is `+∞`. -/
theorem cost_sum_inf (hw vw ow gw pw a b c d : ℚ) (how : 0 < ow) :
    (((Cost.scale hw (.fin a)).add (Cost.scale vw (.fin b))).add
        (Cost.scale ow .inf)).add
      ((Cost.scale gw (.fin c)).add (Cost.scale pw (.fin d))) = .inf := by
  show (((Cost.fin (hw * a)).add (Cost.fin (vw * b))).add
      (if 0 < ow then Cost.inf else if ow < 0 then Cost.ninf else Cost.nan)).add
    ((Cost.fin (gw * c)).add (Cost.fin (pw * d))) = .inf
  rw [if_pos how]
  rfl

/-- A non-empty candidate trajectory whose obstacle cost is `+∞` receives
total cost `+∞` in `_evaluate_trajectory` (the heading, velocity, goal and
path terms of a non-empty trajectory are all finite). -/
theorem evaluateTrajectory_inf (atan2F : ℚ → ℚ → ℚ) (sqrtF : ℚ → ℚ)
    (cfg : DWAConfig) (constraints : VehicleConstraints) (globalPath : List Pt)
    (p0 : ℚ × ℚ × ℚ) (rest : List (ℚ × ℚ × ℚ)) (v : ℚ) (state : VehicleState)
    (goal : Pt) (obstacles : List (ℚ × ℚ × ℚ))
    (how : 0 < cfg.obstacle_weight)
    (hobs : calculateObstacleCost sqrtF cfg (p0 :: rest) obstacles = .inf) :
    evaluateTrajectory atan2F sqrtF cfg constraints globalPath (p0 :: rest) v
      state goal obstacles = .inf := by
  unfold evaluateTrajectory
  rw [if_neg (by simp : ¬(p0 :: rest = ([] : List (ℚ × ℚ × ℚ))))]
  simp only [hobs]
  cases globalPath with
  | nil => exact cost_sum_inf _ _ _ _ _ _ _ _ _ how
  | cons q0 qs => exact cost_sum_inf _ _ _ _ _ _ _ _ _ how

/-- If every candidate of the sampling sweep evaluates to `+∞`, the sweep
never improves on its initial accumulator `((0, 0), ∞)` (IEEE `∞ < ∞` is
false), so it returns the zero command. -/
theorem dwaSweep_sat (atan2F : ℚ → ℚ → ℚ) (cosF sinF sqrtF : ℚ → ℚ)
    (p : DWAPlanner) (state : VehicleState) (goal : Pt)
    (obstacles : List (ℚ × ℚ × ℚ)) (vs ws : List ℚ)
    (hsat : ∀ v ∈ vs, ∀ w ∈ ws,
      evaluateTrajectory atan2F sqrtF p.config p.vehicle.constraints
        p.global_path
        (p.vehicle.predict_trajectory cosF sinF v w p.config.dt
          p.config.predict_time) v state goal obstacles = .inf) :
    dwaSweep atan2F cosF sinF sqrtF p state goal obstacles vs ws =
      ((0, 0), Cost.inf) := by
  have inner : ∀ (v : ℚ) (L : List ℚ),
      (∀ w ∈ L,
        evaluateTrajectory atan2F sqrtF p.config p.vehicle.constraints
          p.global_path
          (p.vehicle.predict_trajectory cosF sinF v w p.config.dt
            p.config.predict_time) v state goal obstacles = .inf) →
      ∀ acc : (ℚ × ℚ) × Cost, acc.2 = Cost.inf →
      L.foldl
        (fun acc w =>
          let trajectory :=
            p.vehicle.predict_trajectory cosF sinF v w p.config.dt
              p.config.predict_time
          let cost := evaluateTrajectory atan2F sqrtF p.config
            p.vehicle.constraints p.global_path trajectory v state goal obstacles
          if Cost.lt cost acc.2 then ((v, w), cost) else acc)
        acc = acc := by
    intro v L
    induction L with
    | nil => intro _ acc _; rfl
    | cons w restw ih =>
        intro h acc ha
        rw [List.foldl_cons]
        have hstep :
            (let trajectory :=
              p.vehicle.predict_trajectory cosF sinF v w p.config.dt
                p.config.predict_time
            let cost := evaluateTrajectory atan2F sqrtF p.config
              p.vehicle.constraints p.global_path trajectory v state goal
              obstacles
            if Cost.lt cost acc.2 then ((v, w), cost) else acc) = acc := by
          show (if Cost.lt
              (evaluateTrajectory atan2F sqrtF p.config p.vehicle.constraints
                p.global_path
                (p.vehicle.predict_trajectory cosF sinF v w p.config.dt
                  p.config.predict_time) v state goal obstacles) acc.2
            then ((v, w), evaluateTrajectory atan2F sqrtF p.config
              p.vehicle.constraints p.global_path
              (p.vehicle.predict_trajectory cosF sinF v w p.config.dt
                p.config.predict_time) v state goal obstacles)
            else acc) = acc
          rw [h w (List.mem_cons_self w restw), ha,
            if_neg (by decide : ¬(Cost.lt Cost.inf Cost.inf = true))]
        rw [hstep]
        exact ih (fun y hy => h y (List.mem_cons_of_mem w hy)) acc ha
  have outer : ∀ (L : List ℚ),
      (∀ v ∈ L, ∀ w ∈ ws,
        evaluateTrajectory atan2F sqrtF p.config p.vehicle.constraints
          p.global_path
          (p.vehicle.predict_trajectory cosF sinF v w p.config.dt
            p.config.predict_time) v state goal obstacles = .inf) →
      ∀ acc : (ℚ × ℚ) × Cost, acc.2 = Cost.inf →
      L.foldl
        (fun acc v =>
          ws.foldl
            (fun acc w =>
              let trajectory :=
                p.vehicle.predict_trajectory cosF sinF v w p.config.dt
                  p.config.predict_time
              let cost := evaluateTrajectory atan2F sqrtF p.config
                p.vehicle.constraints p.global_path trajectory v state goal
                obstacles
              if Cost.lt cost acc.2 then ((v, w), cost) else acc)
            acc)
        acc = acc := by
    intro L
    induction L with
    | nil => intro _ acc _; rfl
    | cons v restv ih =>
        intro h acc ha
        rw [List.foldl_cons,
          inner v ws (h v (List.mem_cons_self v restv)) acc ha]
        exact ih (fun y hy => h y (List.mem_cons_of_mem v hy)) acc ha
  exact outer vs hsat ((0, 0), Cost.inf) rfl

/-- If every candidate in the dynamic window has infinite obstacle cost,
the main sampling path returns the zero command. -/
theorem dwaMain_sat (atan2F : ℚ → ℚ → ℚ) (cosF sinF sqrtF : ℚ → ℚ)
    (q : DWAPlanner) (st : VehicleState) (goal : Pt)
    (obstacles : List DWAObstacle)
    (how : 0 < q.config.obstacle_weight)
    (hsat : ∀ v ∈ arangeQ
        (dynamicWindow sqrtF q.vehicle.constraints st q.config.dt).1
        ((dynamicWindow sqrtF q.vehicle.constraints st q.config.dt).2.1 +
          q.config.v_resolution) q.config.v_resolution,
      ∀ w ∈ arangeQ
        (dynamicWindow sqrtF q.vehicle.constraints st q.config.dt).2.2.1
        ((dynamicWindow sqrtF q.vehicle.constraints st q.config.dt).2.2.2 +
          q.config.w_resolution) q.config.w_resolution,
      calculateObstacleCost sqrtF q.config
        (q.vehicle.predict_trajectory cosF sinF v w q.config.dt
          q.config.predict_time) (convertObstacles obstacles) = .inf) :
    dwaMain atan2F cosF sinF sqrtF q st goal obstacles = (0, 0) := by
  have hEval : ∀ v ∈ arangeQ
      (dynamicWindow sqrtF q.vehicle.constraints st q.config.dt).1
      ((dynamicWindow sqrtF q.vehicle.constraints st q.config.dt).2.1 +
        q.config.v_resolution) q.config.v_resolution,
    ∀ w ∈ arangeQ
      (dynamicWindow sqrtF q.vehicle.constraints st q.config.dt).2.2.1
      ((dynamicWindow sqrtF q.vehicle.constraints st q.config.dt).2.2.2 +
        q.config.w_resolution) q.config.w_resolution,
    evaluateTrajectory atan2F sqrtF q.config q.vehicle.constraints
      q.global_path
      (q.vehicle.predict_trajectory cosF sinF v w q.config.dt
        q.config.predict_time) v st goal (convertObstacles obstacles) =
      .inf := by
    intro v hv w hw
    cases htr : q.vehicle.predict_trajectory cosF sinF v w q.config.dt
        q.config.predict_time with
    | nil => rfl
    | cons p0 rest =>
        exact evaluateTrajectory_inf _ _ _ _ _ _ _ _ _ _ _ how
          (htr ▸ hsat v hv w hw)
  show (dwaSweep atan2F cosF sinF sqrtF q st goal (convertObstacles obstacles)
      (arangeQ (dynamicWindow sqrtF q.vehicle.constraints st q.config.dt).1
        ((dynamicWindow sqrtF q.vehicle.constraints st q.config.dt).2.1 +
          q.config.v_resolution) q.config.v_resolution)
      (arangeQ (dynamicWindow sqrtF q.vehicle.constraints st q.config.dt).2.2.1
        ((dynamicWindow sqrtF q.vehicle.constraints st q.config.dt).2.2.2 +
          q.config.w_resolution) q.config.w_resolution)).1 = (0, 0)
  rw [dwaSweep_sat atan2F cosF sinF sqrtF q st goal (convertObstacles obstacles)
    _ _ hEval]

/-- `advance_waypoint` only moves the waypoint index. -/
theorem advanceWaypoint_config (p : DWAPlanner) :
    (advanceWaypoint p).config = p.config := by
  unfold advanceWaypoint
  split <;> rfl

/-- `advance_waypoint` leaves the bound vehicle untouched. -/
theorem advanceWaypoint_vehicle (p : DWAPlanner) :
    (advanceWaypoint p).vehicle = p.vehicle := by
  unfold advanceWaypoint
  split <;> rfl

/-- **C8 (amended).** If every candidate velocity in the DWA dynamic
window receives infinite obstacle cost, `compute_velocity` returns the
`(0, 0)` command — the first component of its result.  (The claimed
"stuck" flag does not exist: the source returns the bare velocity tuple;
see the counterexample below.) -/
theorem claim_C8_amended (atan2F : ℚ → ℚ → ℚ) (cosF sinF sqrtF : ℚ → ℚ)
    (p : DWAPlanner) (st : VehicleState) (obstacles : List DWAObstacle)
    (how : 0 < p.config.obstacle_weight)
    (hsat : ∀ v ∈ arangeQ
        (dynamicWindow sqrtF p.vehicle.constraints st p.config.dt).1
        ((dynamicWindow sqrtF p.vehicle.constraints st p.config.dt).2.1 +
          p.config.v_resolution) p.config.v_resolution,
      ∀ w ∈ arangeQ
        (dynamicWindow sqrtF p.vehicle.constraints st p.config.dt).2.2.1
        ((dynamicWindow sqrtF p.vehicle.constraints st p.config.dt).2.2.2 +
          p.config.w_resolution) p.config.w_resolution,
      calculateObstacleCost sqrtF p.config
        (MultirotorModel.predict_trajectory cosF sinF
          { p.vehicle with state := st } v w p.config.dt
          p.config.predict_time) (convertObstacles obstacles) = .inf) :
    (DWAPlanner.compute_velocity atan2F cosF sinF sqrtF p st obstacles).1 =
      (0, 0) := by
  simp only [DWAPlanner.compute_velocity]
  split
  · rfl
  · split
    · split
      · rfl
      · rename_i goal2 hg2
        show dwaMain atan2F cosF sinF sqrtF
          (advanceWaypoint
            { p with vehicle := { p.vehicle with state := st } })
          st goal2 obstacles = (0, 0)
        refine dwaMain_sat atan2F cosF sinF sqrtF _ st goal2 obstacles ?_ ?_
        · rw [advanceWaypoint_config]
          exact how
        · simp only [advanceWaypoint_config, advanceWaypoint_vehicle]
          exact hsat
    · rename_i goal1 hg1 hnr
      show dwaMain atan2F cosF sinF sqrtF
        { p with vehicle := { p.vehicle with state := st } }
        st goal1 obstacles = (0, 0)
      exact dwaMain_sat atan2F cosF sinF sqrtF _ st goal1 obstacles how hsat

/-- C8, counterexample to the claimed "stuck" flag: `compute_velocity`
returns the bare velocity tuple, and nothing else a caller could read.
On `pinnedPlanner` the dynamic window holds the single candidate `(0, 0)`
(fourth and fifth conjuncts); with an obstacle sitting on the vehicle that
candidate's obstacle cost is `+∞` (third conjunct), i.e. the claim's
premise holds, yet the call's entire result — command and planner state —
is *equal* to the result of the obstacle-free call in which the same
command wins with finite cost (first conjunct): no component of the
returned value signals obstacle saturation. -/
theorem claim_C8_counterexample :
    DWAPlanner.compute_velocity (fun _ _ => 0) id id id pinnedPlanner {}
        [⟨⟨0, 0⟩, 1⟩] =
      DWAPlanner.compute_velocity (fun _ _ => 0) id id id pinnedPlanner {} [] ∧
    (DWAPlanner.compute_velocity (fun _ _ => 0) id id id pinnedPlanner {}
        [⟨⟨0, 0⟩, 1⟩]).1 = (0, 0) ∧
    calculateObstacleCost id pinnedPlanner.config
      (MultirotorModel.predict_trajectory id id
        { pinnedPlanner.vehicle with state := {} } 0 0 pinnedPlanner.config.dt
        pinnedPlanner.config.predict_time)
      (convertObstacles [⟨⟨0, 0⟩, 1⟩]) = .inf ∧
    arangeQ (dynamicWindow id pinnedPlanner.vehicle.constraints {}
        pinnedPlanner.config.dt).1
      ((dynamicWindow id pinnedPlanner.vehicle.constraints {}
        pinnedPlanner.config.dt).2.1 + pinnedPlanner.config.v_resolution)
      pinnedPlanner.config.v_resolution = [0] ∧
    arangeQ (dynamicWindow id pinnedPlanner.vehicle.constraints {}
        pinnedPlanner.config.dt).2.2.1
      ((dynamicWindow id pinnedPlanner.vehicle.constraints {}
        pinnedPlanner.config.dt).2.2.2 + pinnedPlanner.config.w_resolution)
      pinnedPlanner.config.w_resolution = [0] := by
  decide

/-- Witness for C8 (amended) on `pinnedPlanner` with the obstacle sitting
on the vehicle. -/
theorem claim_C8_witness :
    ((0 : ℚ) < pinnedPlanner.config.obstacle_weight ∧
     ∀ v ∈ arangeQ
        (dynamicWindow id pinnedPlanner.vehicle.constraints {}
          pinnedPlanner.config.dt).1
        ((dynamicWindow id pinnedPlanner.vehicle.constraints {}
          pinnedPlanner.config.dt).2.1 + pinnedPlanner.config.v_resolution)
        pinnedPlanner.config.v_resolution,
      ∀ w ∈ arangeQ
        (dynamicWindow id pinnedPlanner.vehicle.constraints {}
          pinnedPlanner.config.dt).2.2.1
        ((dynamicWindow id pinnedPlanner.vehicle.constraints {}
          pinnedPlanner.config.dt).2.2.2 + pinnedPlanner.config.w_resolution)
        pinnedPlanner.config.w_resolution,
      calculateObstacleCost id pinnedPlanner.config
        (MultirotorModel.predict_trajectory id id
          { pinnedPlanner.vehicle with state := {} } v w
          pinnedPlanner.config.dt pinnedPlanner.config.predict_time)
        (convertObstacles [⟨⟨0, 0⟩, 1⟩]) = .inf) ∧
    (DWAPlanner.compute_velocity (fun _ _ => 0) id id id pinnedPlanner {}
      [⟨⟨0, 0⟩, 1⟩]).1 = (0, 0) :=
  ⟨⟨by decide, by decide⟩,
    claim_C8_amended (fun _ _ => 0) id id id pinnedPlanner {} [⟨⟨0, 0⟩, 1⟩]
      (by decide) (by decide)⟩

/-- **C5.** The A* loop expands a position **twice**: the pop at the head
of the loop performs no closed-set membership test, so a stale heap entry
is expanded rather than discarded.  In the concrete ten-cell
configuration `astarDemo` (start `(30, 5)`, goal `(0, 0)`, Manhattan
heuristic, weight 2), the first ten iterations expand the listed
positions in order: `(15, -5)` is first reached from `(15, 0)` with
`g = 5 + 15√2`, improved — while still open — from `(20, -5)` to
`g = 5 + 10√2` (the improved entry is expanded at iteration 7), and the
stale `5 + 15√2` entry is then popped and expanded again at iteration 10
instead of being discarded: the expansion trace holds `(15, -5)` twice,
with the later, stale expansion carrying the strictly larger g. -/
theorem claim_C5 :
    (astarDemo 10).expanded.map Prod.fst =
      [⟨30, 5⟩, ⟨25, 0⟩, ⟨20, 5⟩, ⟨15, 0⟩, ⟨15, 5⟩, ⟨20, -5⟩, ⟨15, -5⟩,
       ⟨25, 5⟩, ⟨30, 0⟩, ⟨15, -5⟩] ∧
    (astarDemo 10).expanded[6]? = some (⟨15, -5⟩, ⟨5, 10⟩) ∧
    (astarDemo 10).expanded[9]? = some (⟨15, -5⟩, ⟨5, 15⟩) ∧
    Q2.lt ⟨5, 10⟩ ⟨5, 15⟩ = true ∧
    (astarDemo 10).result = none ∧
    ¬ ((astarDemo 10).expanded.map Prod.fst).Nodup := by
  set_option maxRecDepth 8000 in decide

end UAV
